import Mathlib

/-!
Verification of the SID ("Storage Instantiation Daemon") core against its
natural-language specification.  The definitions below are a shallow
embedding of `src/resource/ubridge.c` (helpers from `src/internal/util.c`):
vector values are modelled as a header structure plus a list of data items
(the C code stores the 4 header slots inline at vector indices 0..3 and data
items from index 4 = `VVALUE_IDX_DATA`); byte strings are Lean `String`s
compared lexicographically, mirroring `strcmp`; the key-value store is a
function from key strings to optional records.

The kv-store primitives themselves (`kv-store.c`) are not part of the
source tree; their compare-and-update contract is modelled from the spec,
section 4.2: `set` invokes the caller's update callback with the old and new
record, the callback returns 1 to commit and 0 to abort, and the committed
value is the (possibly callback-rewritten) new data.
-/

namespace Sid

/-- `kv_op_t` from ubridge.c. -/
inductive KvOp where
  | illegal
  | set
  | plus
  | minus
deriving DecidableEq, Repr

/-- `sid_ucmd_kv_namespace_t` from ucmd-module.h. -/
inductive KvNs where
  | undefined
  | udev
  | device
  | module
  | global
deriving DecidableEq, Repr

/-- `KV_PERSISTENT` flag bit (ucmd-module.h). -/
def KV_PERSISTENT : Nat := 1

/-- `KV_MOD_PROTECTED` flag bit (ucmd-module.h). -/
def KV_MOD_PROTECTED : Nat := 2

/-- `KV_MOD_PRIVATE` flag bit (ucmd-module.h). -/
def KV_MOD_PRIVATE : Nat := 4

/-- `KV_MOD_RESERVED` flag bit (ucmd-module.h). -/
def KV_MOD_RESERVED : Nat := 8

/-- Modelled from the spec: the `KV_SYNC` flag ("must cross the
worker-to-parent boundary", spec section 3.1).  Its definition lives in a
header that is not under `src/`; only its distinctness from the four bits in
`ucmd-module.h` matters here. -/
def KV_SYNC : Nat := 16

/-- `DEFAULT_VALUE_FLAGS_CORE` from ubridge.c. -/
def DEFAULT_VALUE_FLAGS_CORE : Nat := KV_SYNC + KV_PERSISTENT + KV_MOD_RESERVED + KV_MOD_PRIVATE

/-- `value_flags_sync` from ubridge.c. -/
def valueFlagsSync : Nat := DEFAULT_VALUE_FLAGS_CORE

/-- `value_flags_no_sync` from ubridge.c (`DEFAULT_VALUE_FLAGS_CORE & ~KV_SYNC`). -/
def valueFlagsNoSync : Nat := KV_PERSISTENT + KV_MOD_RESERVED + KV_MOD_PRIVATE

/-- `OWNER_CORE` / `MOD_NAME_CORE` from ubridge.c. -/
def OWNER_CORE : String := "#core"

/-- errno `EPERM`. -/
def EPERM : Int := 1

/-- errno `EACCES`. -/
def EACCES : Int := 13

/-- errno `EBUSY`. -/
def EBUSY : Int := 16

/-- errno `EINVAL`. -/
def EINVAL : Int := 22

/-- `VVALUE_HEADER_CNT` (= `VVALUE_IDX_DATA` = 4) from ubridge.c. -/
def VVALUE_HEADER_CNT : Nat := 4

/-- `VVALUE_SINGLE_CNT` (= `VVALUE_IDX_DATA + 1` = 5) from ubridge.c. -/
def VVALUE_SINGLE_CNT : Nat := 5

/-- A vector value: the 4 header slots (`gennum`, `seqnum`, `flags`, `owner`,
indices `VVALUE_IDX_GENNUM` .. `VVALUE_IDX_OWNER`) followed by the data items
(indices from `VVALUE_IDX_DATA`).  Data items are the vector's value bytes,
modelled as strings compared like `strcmp`. -/
structure VValue where
  gennum : Nat
  seqnum : Nat
  flags : Nat
  owner : String
  data : List String
deriving DecidableEq, Repr

/--
`_delta_step_calc` from ubridge.c, the merge-walk over the data items of the
old and the new vector (the walk starts at index `VVALUE_HEADER_CNT`, so the
header slots are excluded; an absent old value behaves as an empty item
list).  Returns `none` when the walk aborts (`KV_OP_ILLEGAL` reached with an
item at hand, `goto out` with `r < 0`), otherwise the contents of the
`delta->plus`, `delta->minus` and `delta->final` buffers beyond their header
slots, in the order the code appends them.
-/
def deltaStepWalk (op : KvOp) : List String → List String → Option (List String × List String × List String)
  | o :: os, n :: ns =>
    if o < n then
      match op with
      | .set => (deltaStepWalk op os (n :: ns)).map fun r => (r.1, o :: r.2.1, r.2.2)
      | .plus | .minus => (deltaStepWalk op os (n :: ns)).map fun r => (r.1, r.2.1, o :: r.2.2)
      | .illegal => none
    else if n < o then
      match op with
      | .set | .plus => (deltaStepWalk op (o :: os) ns).map fun r => (n :: r.1, r.2.1, n :: r.2.2)
      | .minus => deltaStepWalk op (o :: os) ns
      | .illegal => none
    else
      match op with
      | .set | .plus => (deltaStepWalk op os ns).map fun r => (r.1, r.2.1, n :: r.2.2)
      | .minus => (deltaStepWalk op os ns).map fun r => (r.1, n :: r.2.1, r.2.2)
      | .illegal => none
  | [], n :: ns =>
    match op with
    | .set | .plus => (deltaStepWalk op [] ns).map fun r => (n :: r.1, r.2.1, n :: r.2.2)
    | .minus => deltaStepWalk op [] ns
    | .illegal => none
  | o :: os, [] =>
    match op with
    | .set => (deltaStepWalk op os []).map fun r => (r.1, o :: r.2.1, r.2.2)
    | .plus | .minus => (deltaStepWalk op os []).map fun r => (r.1, r.2.1, o :: r.2.2)
    | .illegal => none
  | [], [] => some ([], [], [])
termination_by o n => o.length + n.length

/--
`_destroy_unused_delta_buffers` from ubridge.c: a `delta->plus` or
`delta->minus` buffer holding fewer than `VVALUE_SINGLE_CNT` slots (that is,
only its 4 header slots and no data item) is destroyed, leaving a NULL
buffer, modelled as `none`.
-/
def destroyUnused (items : List String) : Option (List String) :=
  if items.isEmpty then none else some items

/--
The result of one delta step on a key: `plus` and `minus` as left by
`_destroy_unused_delta_buffers` (NULL when data-empty) and the `final` data
items.  `none` when `_delta_step_calc` failed and the buffers were destroyed
(`_kv_cb_delta_step` then returns 0 and the store keeps the old value).
-/
def deltaStepCalc (op : KvOp) (old new : List String) :
    Option (Option (List String) × Option (List String) × List String) :=
  (deltaStepWalk op old new).map fun r => (destroyUnused r.1, destroyUnused r.2.1, r.2.2)

/-! ### Cross-bitmap calculation (`_delta_cross_bitmap_calc`, `_delta_abs_calc`) -/

/--
`_delta_cross_bitmap_calc` from ubridge.c: merge-walk two sorted data lists;
a position is unset (`false`) in a bitmap exactly when the item occurs in
both lists (a contradiction).  Returns the data-item keep flags for the old
and the new list (the 4 header bits of the real bitmaps are never unset and
are accounted for separately as `VVALUE_HEADER_CNT`).
-/
def crossWalk : List String → List String → List Bool × List Bool
  | [], ns => ([], ns.map fun _ => true)
  | o :: os, [] => ((o :: os).map fun _ => true, [])
  | o :: os, n :: ns =>
    if o < n then
      let r := crossWalk os (n :: ns)
      (true :: r.1, r.2)
    else if n < o then
      let r := crossWalk (o :: os) ns
      (r.1, true :: r.2)
    else
      let r := crossWalk os ns
      (false :: r.1, false :: r.2)
termination_by o n => o.length + n.length

/-- Number of set bits in a bitmap fragment. -/
def countTrue (l : List Bool) : Nat := l.count true

/-- Items of `l` whose bitmap position is still set. -/
def keptByFlags (l : List String) (bs : List Bool) : List String :=
  (l.zip bs).filterMap fun x => if x.2 then some x.1 else none

/-- Keep flags of a stored (old) vector: all set when the delta-side buffer
is absent (the cross walk is only run when it exists), otherwise the old
side of the cross walk. -/
def keepOldFlags (o : List String) (nw : Option (List String)) : List Bool :=
  match nw with
  | none => o.map fun _ => true
  | some n => (crossWalk o n).1

/-- Keep flags of a delta (new) vector: all set when the stored vector is
absent (the walk then has nothing to compare), otherwise the new side of
the cross walk. -/
def keepNewFlags (od : Option (List String)) (n : List String) : List Bool :=
  match od with
  | none => n.map fun _ => true
  | some o => (crossWalk o n).2

/--
`abs_minus_vsize` from `_delta_abs_calc` (ubridge.c:1624-1627): the set-bit
counts of `cross2.old_bmp` (stored `-` vector vs `delta->plus`) and
`cross1.new_bmp` (`delta->minus` vs stored `+` vector) are summed — each
bitmap contributes its 4 always-set header bits when it exists — and
`VVALUE_HEADER_CNT` is subtracted exactly once, only when both bitmaps
exist.  `sp`/`sm` are the stored `+`/`-` record data, `dp`/`dm` the local
delta plus/minus data.
-/
def absMinusSize (sp sm dp dm : Option (List String)) : Nat :=
  ((match sm with
    | none => 0
    | some m => VVALUE_HEADER_CNT + countTrue (keepOldFlags m dp)) +
   (match dm with
    | none => 0
    | some d => VVALUE_HEADER_CNT + countTrue (keepNewFlags sp d))) -
  (if sm.isSome && dm.isSome then VVALUE_HEADER_CNT else 0)

/-- `abs_plus_vsize` from `_delta_abs_calc` (ubridge.c:1629-1632), dual to
`absMinusSize`: `cross1.old_bmp` (stored `+` vector vs `delta->minus`) plus
`cross2.new_bmp` (`delta->plus` vs stored `-` vector). -/
def absPlusSize (sp sm dp dm : Option (List String)) : Nat :=
  ((match sp with
    | none => 0
    | some p => VVALUE_HEADER_CNT + countTrue (keepOldFlags p dm)) +
   (match dp with
    | none => 0
    | some d => VVALUE_HEADER_CNT + countTrue (keepNewFlags sm d))) -
  (if sp.isSome && dp.isSome then VVALUE_HEADER_CNT else 0)

/-- Insert into a sorted list, keeping order. -/
def insertSorted (x : String) : List String → List String
  | [] => [x]
  | y :: ys => if x ≤ y then x :: y :: ys else y :: insertSorted x ys

/-- `qsort` of the data items with `_vvalue_str_cmp` (lexicographic);
since items comparing equal under `strcmp` are identical byte strings, any
comparison sort produces the same list, so an insertion sort models it. -/
def sortVData (l : List String) : List String := l.foldr insertSorted []

/-- Data items collected into `abs_delta->plus` (ubridge.c:1641-1650 and
1674-1683): surviving items of the stored `+` vector, then surviving items
of `delta->plus`, sorted. -/
def absPlusItems (sp sm dp dm : Option (List String)) : List String :=
  sortVData
    ((match sp with
      | none => []
      | some p => keptByFlags p (keepOldFlags p dm)) ++
     (match dp with
      | none => []
      | some d => keptByFlags d (keepNewFlags sm d)))

/-- Data items collected into `abs_delta->minus` (ubridge.c:1652-1661 and
1663-1672): surviving items of `delta->minus`, then surviving items of the
stored `-` vector, sorted. -/
def absMinusItems (sp sm dp dm : Option (List String)) : List String :=
  sortVData
    ((match dm with
      | none => []
      | some d => keptByFlags d (keepNewFlags sp d)) ++
     (match sm with
      | none => []
      | some m => keptByFlags m (keepOldFlags m dp)))

/-- `_init_delta_buffer` from ubridge.c: with size 0 no buffer is created
(`none`), otherwise a buffer holding the header and the given data items;
only the data items are tracked here. -/
def initDeltaBuffer (size : Nat) (items : List String) : Option (List String) :=
  if size = 0 then none else some items

/-! ### Key codec (`_do_compose_key`, `_get_key_part` and friends) -/

/-- `struct kv_key_spec` from ubridge.c. -/
structure KvKeySpec where
  op : KvOp
  dom : String
  ns : KvNs
  nsPart : String
  id : String
  idPart : String
  core : String
deriving DecidableEq, Repr

/-- `op_to_key_prefix_map` from `_do_compose_key`. -/
def opToKeyPfxMap : KvOp → String
  | .illegal => "X"
  | .set => ""
  | .plus => "+"
  | .minus => "-"

/-- `ns_to_key_prefix_map` from `_do_compose_key`. -/
def nsToKeyPfxMap : KvNs → String
  | .undefined => ""
  | .udev => "U"
  | .device => "D"
  | .module => "M"
  | .global => "G"

/-- `_compose_key` from ubridge.c: a leading space (room for the extra op
marker used by the sync index), then the seven fields joined by `:`. -/
def composeKey (sk : KvKeySpec) : String :=
  " " ++ opToKeyPfxMap sk.op ++ ":" ++ sk.dom ++ ":" ++ nsToKeyPfxMap sk.ns ++ ":" ++
    sk.nsPart ++ ":" ++ sk.id ++ ":" ++ sk.idPart ++ ":" ++ sk.core

/-- `_compose_key_prefix` from ubridge.c: no leading space, no `core` field. -/
def composeKeyPfx (sk : KvKeySpec) : String :=
  opToKeyPfxMap sk.op ++ ":" ++ sk.dom ++ ":" ++ nsToKeyPfxMap sk.ns ++ ":" ++
    sk.nsPart ++ ":" ++ sk.id ++ ":" ++ sk.idPart

/-- Split a character list at every occurrence of `sep` (the field walk of
`_get_key_part`, which steps from one `KV_STORE_KEY_JOIN` to the next). -/
def splitOnChar (sep : Char) : List Char → List (List Char)
  | [] => [[]]
  | c :: rest =>
    match splitOnChar sep rest with
    | [] => [[c]]
    | f :: fs => if c = sep then [] :: f :: fs else (c :: f) :: fs

/-- The `:`-separated fields of a key. -/
def keyFields (key : String) : List String :=
  (splitOnChar ':' key.data).map String.mk

/-- `_copy_ns_part_from_key` from ubridge.c: the fourth `:`-separated field
(`KEY_PART_NS_PART`); `_get_key_part` requires a following separator, so at
least five fields must be present. -/
def copyNsPartFromKey (key : String) : Option String :=
  match keyFields key with
  | _ :: _ :: _ :: np :: _ :: _ => some np
  | _ => none

/-- `_get_op_from_key` from ubridge.c: the first field selects the
operation; longer than one character, or no separator at all, is illegal. -/
def getOpFromKey (key : String) : KvOp :=
  match keyFields key with
  | p :: _ :: _ =>
    if 1 < p.length then .illegal
    else if p = "" then .set
    else if p = "+" then .plus
    else if p = "-" then .minus
    else .illegal
  | _ => .illegal

/-! ### The kv store and the standard callbacks -/

/-- The kv store: a map from key strings to records.  Modelled from the
spec, section 4.2 (`kv-store.c` is not under `src/`): `set` calls the update
callback on `(old, new)` and commits the (callback-rewritten) new record iff
the callback returns 1; sync-index aliases live under `>`-prefixed keys in a
separate namespace and are not modelled. -/
def Store := String → Option VValue

/-- Commit a record under a key. -/
def updateStore (st : Store) (k : String) (v : VValue) : Store :=
  fun x => if x = k then some v else st x

/-- Remove a record. -/
def removeStore (st : Store) (k : String) : Store :=
  fun x => if x = k then none else st x

/-- Data items of the record stored under `k`. -/
def storeData (st : Store) (k : String) : Option (List String) :=
  (st k).map VValue.data

/-- Data items of the record stored under `k`, empty when absent. -/
def vdataAt (st : Store) (k : String) : List String :=
  (storeData st k).getD []

/-- `_check_kv_index_needed` from ubridge.c (`KV_INDEX_NOOP`/`ADD`/`REMOVE`
as 0/1/2). -/
def checkKvIndexNeeded (old new : Option VValue) : Int :=
  let oldIdx : Bool := match old with
    | some o => o.flags &&& KV_SYNC != 0
    | none => false
  let newIdx : Bool := match new with
    | some n => n.flags &&& KV_SYNC != 0
    | none => false
  if oldIdx && !newIdx then 2
  else if !oldIdx && newIdx then 1
  else 0

/-- `_kv_cb_overwrite` from ubridge.c: first component is the callback's
return value (commit?), second is `update_arg->ret_code` (a negative errno
on refusal, the index action on commit). -/
def kvCbOverwrite (old : Option VValue) (new : VValue) : Bool × Int :=
  match old with
  | none => (true, checkKvIndexNeeded none (some new))
  | some o =>
    if o.flags &&& KV_MOD_PRIVATE != 0 then
      if o.owner ≠ new.owner then (false, -EACCES)
      else (true, checkKvIndexNeeded (some o) (some new))
    else if o.flags &&& KV_MOD_PROTECTED != 0 then
      if o.owner ≠ new.owner then (false, -EPERM)
      else (true, checkKvIndexNeeded (some o) (some new))
    else if o.flags &&& KV_MOD_RESERVED != 0 then
      if o.owner ≠ new.owner then (false, -EBUSY)
      else (true, checkKvIndexNeeded (some o) (some new))
    else (true, checkKvIndexNeeded (some o) (some new))

/-- `kv_store_set_value` with the `_kv_cb_overwrite` callback (commit
semantics modelled from the spec, section 4.2). -/
def overwriteWrite (st : Store) (k : String) (v : VValue) : Store :=
  if (kvCbOverwrite (st k) v).1 then updateStore st k v else st

/-! ### The delta pipeline (`_kv_delta_set`, `_delta_abs_calc`, `_delta_update`) -/

/-- `kv_store_set_value` with the `_kv_cb_delta_step` callback: run
`_delta_step_calc` against the stored record; on success the callback
rewrites the new data to `delta->final` and commits (the final buffer always
exists since the new vector is never empty), on failure it returns 0 and
nothing is stored.  Result: the surviving `delta->plus` / `delta->minus`
buffers and the updated store. -/
def deltaStepApply (op : KvOp) (st : Store) (k : String) (newv : VValue) :
    Option (Option (List String) × Option (List String) × Store) :=
  match deltaStepCalc op ((storeData st k).getD []) newv.data with
  | none => none
  | some r => some (r.1, r.2.1, updateStore st k { newv with data := r.2.2 })

/-- `_delta_abs_calc` from ubridge.c: nothing to do when both local delta
buffers are gone; otherwise read the stored `+`/`-` records of the current
key and build the absolute delta buffers (allocated only when the computed
size is non-zero). -/
def deltaAbsCalc (st : Store) (cur : KvKeySpec) (dp dm : Option (List String)) :
    Option (List String) × Option (List String) :=
  if dp = none ∧ dm = none then (none, none)
  else
    let sp := storeData st (composeKey { cur with op := .plus })
    let sm := storeData st (composeKey { cur with op := .minus })
    (initDeltaBuffer (absPlusSize sp sm dp dm) (absPlusItems sp sm dp dm),
     initDeltaBuffer (absMinusSize sp sm dp dm) (absMinusItems sp sm dp dm))

/-- `rel_vvalue` prepared in `_delta_update` (ubridge.c:1807-1812): header
from `vheader` with `value_flags_no_sync` and the caller's owner, sole data
item the current key's prefix. -/
def relVValue (vheader : VValue) (owner pfx : String) : VValue :=
  { gennum := vheader.gennum, seqnum := vheader.seqnum, flags := valueFlagsNoSync,
    owner := owner, data := [pfx] }

/-- The absolute-delta record written by `_delta_update`: buffer header from
`vheader`, flags slot rewritten to `value_flags_sync` by
`_value_vector_mark_sync`. -/
def absVValue (vheader : VValue) (items : List String) : VValue :=
  { gennum := vheader.gennum, seqnum := vheader.seqnum, flags := valueFlagsSync,
    owner := vheader.owner, data := items }

/-- The absolute-delta store write of `_delta_update` (ubridge.c:1761-1782):
the op-keyed record is written through `_kv_cb_overwrite`. -/
def deltaUpdateAbs (op : KvOp) (st : Store) (cur : KvKeySpec) (vheader : VValue)
    (absv : List String) : Store :=
  overwriteWrite st (composeKey { cur with op := op }) (absVValue vheader absv)

/--
`_delta_update` without `DELTA_WITH_REL` (the nested calls, flags
`DELTA_WITH_DIFF`): when the absolute buffer is absent it returns 0 at once;
otherwise it writes the op-keyed absolute record and — since the relative
branch is skipped — returns `r = -1` (ubridge.c:1742, 1785, 1841).  The
boolean is `r ≥ 0`.
-/
def deltaUpdateNoRel (op : KvOp) (st : Store) (cur : KvKeySpec) (vheader : VValue)
    (absv : Option (List String)) : Store × Bool :=
  match absv with
  | none => (st, true)
  | some av => (deltaUpdateAbs op st cur vheader av, false)

/-- `_kv_delta_set` called with `DELTA_WITH_DIFF` only (the nested
reciprocal writes): delta step, absolute-delta calculation, then the plus
update; the minus update runs only when the plus update did not return a
negative value (ubridge.c:1927-1931). -/
def kvDeltaSetNoRel (st : Store) (cur : KvKeySpec) (op : KvOp) (newv : VValue) : Store :=
  match deltaStepApply op st (composeKey cur) newv with
  | none => st
  | some (dp, dm, st1) =>
    let ab := deltaAbsCalc st1 cur dp dm
    let p := deltaUpdateNoRel .plus st1 cur newv ab.1
    if p.2 then (deltaUpdateNoRel .minus p.1 cur newv ab.2).1 else p.1

/-- The relative-update loop of `_delta_update` (ubridge.c:1814-1830): for
each local delta item, extract its namespace part, compose the reciprocal
key from the flipped key spec and run a nested `_kv_delta_set` with
`DELTA_WITH_DIFF` only; failure to extract the namespace part aborts the
loop with `r < 0`. -/
def deltaUpdateLoop (op : KvOp) (nestedCur : KvKeySpec) (vheader : VValue)
    (owner pfx : String) : Store → List String → Store × Bool
  | st, [] => (st, true)
  | st, n :: ns =>
    match copyNsPartFromKey n with
    | none => (st, false)
    | some np =>
      deltaUpdateLoop op nestedCur vheader owner pfx
        (kvDeltaSetNoRel st { nestedCur with nsPart := np } op (relVValue vheader owner pfx)) ns

/--
`_delta_update` with `DELTA_WITH_REL` (the top-level call): absent absolute
buffer returns 0; otherwise the op-keyed absolute record is written and the
reciprocal loop runs over the local delta items.  When the local delta
buffer is absent, the C code reads the size of a NULL buffer into an
uninitialized variable (ubridge.c:1749/1755); it is modelled as 0 — the only
value under which the subsequent loop does not walk an uninitialized
pointer — so the branch is skipped and the function returns `r = -1`.
-/
def deltaUpdateRel (op : KvOp) (st : Store) (cur rel : KvKeySpec) (vheader : VValue)
    (owner : String) (absv items : Option (List String)) : Store × Bool :=
  match absv with
  | none => (st, true)
  | some av =>
    let st1 := deltaUpdateAbs op st cur vheader av
    match items with
    | none => (st1, false)
    | some its => deltaUpdateLoop op rel vheader owner (composeKeyPfx cur) st1 its

/-- `_kv_delta_set` with `DELTA_WITH_DIFF | DELTA_WITH_REL` (the relation
mutations): as `kvDeltaSetNoRel` but the updates also write the reciprocal
edges; a negative return of the plus update skips the minus update
(ubridge.c:1927-1931). -/
def kvDeltaSet (st : Store) (cur rel : KvKeySpec) (op : KvOp) (newv : VValue)
    (owner : String) : Store :=
  match deltaStepApply op st (composeKey cur) newv with
  | none => st
  | some (dp, dm, st1) =>
    let ab := deltaAbsCalc st1 cur dp dm
    let p := deltaUpdateRel .plus st1 cur rel newv owner ab.1 dp
    if p.2 then (deltaUpdateRel .minus p.1 cur rel newv owner ab.2 dm).1 else p.1

/-- `_kv_delta_set` as invoked from `_sync_main_kv_store`: the delta flags
are zero there, so only the delta step itself runs — no absolute-delta and
no reciprocal updates. -/
def kvDeltaSetPlain (op : KvOp) (st : Store) (k : String) (v : VValue) : Store :=
  match deltaStepApply op st k v with
  | none => st
  | some r => r.2.2

/-! ### Merge at the parent (`_kv_cb_main_set`, `_kv_cb_main_unset`, `_sync_main_kv_store`) -/

/-- `struct kv_value` from ubridge.c, the scalar record layout: header
fields, the owner string, then the external data; `ext = ""` models a
payload holding only the owner string. -/
structure SValue where
  gennum : Nat
  seqnum : Nat
  flags : Nat
  owner : String
  ext : String
deriving DecidableEq, Repr

/-- `_get_vvalue` applied to a scalar record. -/
def svalueToVValue (s : SValue) : VValue :=
  { gennum := s.gennum, seqnum := s.seqnum, flags := s.flags, owner := s.owner,
    data := if s.ext = "" then [] else [s.ext] }

/-- `_flags_indicate_mod_owned` from ubridge.c. -/
def flagsIndicateModOwned (flags : Nat) : Bool :=
  flags &&& (KV_MOD_PROTECTED + KV_MOD_PRIVATE + KV_MOD_RESERVED) != 0

/-- `_kv_cb_main_set` from ubridge.c: commit iff there is no old record, or
the new sequence number is at least the old one and `_kv_cb_overwrite`
agrees. -/
def kvCbMainSet (old : Option VValue) (new : VValue) : Bool :=
  match old with
  | none => true
  | some o => decide (o.seqnum ≤ new.seqnum) && (kvCbOverwrite (some o) new).1

/-- `kv_store_set_value` with `_kv_cb_main_set` (commit semantics modelled
from the spec, section 4.2). -/
def mainSetWrite (st : Store) (k : String) (v : VValue) : Store :=
  if kvCbMainSet (st k) v then updateStore st k v else st

/-- `kv_store_unset` with `_kv_cb_main_unset` (ubridge.c:4172-4196): refuse
when the stored record carries a protection flag and belongs to a different
owner than the incoming record, otherwise remove the key. -/
def mainUnsetWrite (st : Store) (k : String) (reqOwner : String) : Store :=
  match st k with
  | none => st
  | some o =>
    if flagsIndicateModOwned o.flags && o.owner != reqOwner then st
    else removeStore st k

/-- One serialized record of a worker export buffer. -/
inductive SyncValue where
  | vec (v : VValue)
  | scal (s : SValue)
deriving DecidableEq, Repr

/-- Key plus value as read by `_sync_main_kv_store`. -/
structure SyncRec where
  key : String
  value : SyncValue
deriving DecidableEq, Repr

/--
The per-record body of the `_sync_main_kv_store` loop (ubridge.c:4262-4378).
For a vector: `unset` iff the `KV_MOD_RESERVED` *bit* is clear and the
vector holds exactly the header slots; an illegal key operator aborts the
sync (`none`); `+`/`-` keys are stripped of their one-character operator and
fed into `_kv_delta_set` (with zero delta flags), bare keys into
`_kv_cb_main_set`, unsets into `_kv_cb_main_unset`.  For a scalar: `unset`
iff the flags word equals `KV_MOD_RESERVED` *exactly* and the payload holds
only the owner string; the key is used as is and the operation is SET.
-/
def syncApplyRec (st : Store) (rec : SyncRec) : Option Store :=
  match rec.value with
  | .vec v =>
    let unset : Bool := !(v.flags &&& KV_MOD_RESERVED != 0) && v.data.isEmpty
    let op := getOpFromKey rec.key
    if op = .illegal then none
    else
      let k := if op = .set then rec.key else rec.key.drop 1
      if unset then some (mainUnsetWrite st k v.owner)
      else if op = .set then some (mainSetWrite st k v)
      else some (kvDeltaSetPlain op st k v)
  | .scal s =>
    let unset : Bool := (s.flags != KV_MOD_RESERVED) && (s.ext = "")
    if unset then some (mainUnsetWrite st rec.key s.owner)
    else some (mainSetWrite st rec.key (svalueToVValue s))

/-! ### Scan phases and capability gating -/

/-- `cmd_scan_phase_t` from ubridge.c. -/
inductive ScanPhase where
  | aInit
  | aIdent
  | aScanPre
  | aScanCurrent
  | aScanNext
  | aScanPostCurrent
  | aScanPostNext
  | aWaiting
  | aExit
  | bTriggerActionCurrent
  | bTriggerActionNext
  | phError
deriving DecidableEq, Repr

/-- `CMD_SCAN_CAP_RDY` from ubridge.c. -/
def CMD_SCAN_CAP_RDY : Nat := 1

/-- `CMD_SCAN_CAP_RES` from ubridge.c. -/
def CMD_SCAN_CAP_RES : Nat := 2

/-- `CMD_SCAN_CAP_ALL` from ubridge.c (`0xFFFFFFFF`). -/
def CMD_SCAN_CAP_ALL : Nat := 4294967295

/-- The `flags` column of `_cmd_scan_phase_regs` (ubridge.c:3572-3598). -/
def cmdScanPhaseCaps : ScanPhase → Nat
  | .aInit => CMD_SCAN_CAP_ALL
  | .aIdent => 0
  | .aScanPre => CMD_SCAN_CAP_RDY
  | .aScanCurrent => CMD_SCAN_CAP_RDY
  | .aScanNext => CMD_SCAN_CAP_RES
  | .aScanPostCurrent => 0
  | .aScanPostNext => 0
  | .aWaiting => 0
  | .aExit => CMD_SCAN_CAP_ALL
  | .bTriggerActionCurrent => 0
  | .bTriggerActionNext => 0
  | .phError => 0

/--
The phases during which module functions can run, read off the dispatcher:
of the `_cmd_exec_scan_*` handlers only ident, scan-pre, scan-current,
scan-next, scan-post-current and scan-post-next invoke module phase
functions (init, exit, waiting and the trigger-action handlers call no
module), and `_cmd_exec_scan` invokes the error handler *without* changing
`ucmd_ctx->scan.phase` (ubridge.c:3617), so module error callbacks also
observe one of these six phases.
-/
def modulePhases : List ScanPhase :=
  [.aIdent, .aScanPre, .aScanCurrent, .aScanNext, .aScanPostCurrent, .aScanPostNext]

/-- `dev_ready_t`; the `UNDEFINED` member referenced by ubridge.c lives in a
header revision not under `src/`. -/
inductive DevReady where
  | undefined
  | unprocessed
  | notReadyInaccessible
  | notReadyAccessible
  | readyPrivate
  | readyPublic
  | readyUnavailable
deriving DecidableEq, Repr

/-- `dev_reserved_t`, with the `UNDEFINED` member as above. -/
inductive DevReserved where
  | undefined
  | unprocessed
  | free
  | reserved
deriving DecidableEq, Repr

/-- The key spec used by `_passes_global_reservation_check`: empty
namespace part (the global reservation record). -/
def globalResKeySpec (ns : KvNs) (core : String) : KvKeySpec :=
  { op := .set, dom := "", ns := ns, nsPart := "", id := "", idPart := "", core := core }

/-- `_passes_global_reservation_check` from ubridge.c: only the UDEV and
DEVICE namespaces are checked; an existing record at the global reservation
key passes only when it carries `KV_MOD_RESERVED` and belongs to the same
owner. -/
def passesGlobalReservationCheck (st : Store) (owner : String) (ns : KvNs) (core : String) : Bool :=
  if ns ≠ .udev ∧ ns ≠ .device then true
  else match st (composeKey (globalResKeySpec ns core)) with
    | none => true
    | some v => (v.flags &&& KV_MOD_RESERVED != 0) && (v.owner == owner)

/-- `_do_sid_ucmd_set_kv` from ubridge.c: the global-reservation check is
skipped only for UDEV records written by the core; the record is then
written through `_kv_cb_overwrite` under the composed key (empty `id` and
`id_part`, as in the source's key spec). -/
def doSidUcmdSetKv (st : Store) (owner : String) (dom : String) (ns : KvNs)
    (nsPart core : String) (flags : Nat) (gennum seqnum : Nat) (data : List String) : Store :=
  if ¬(ns = .udev ∧ owner = OWNER_CORE) ∧ passesGlobalReservationCheck st owner ns core = false
  then st
  else
    overwriteWrite st
      (composeKey { op := .set, dom := dom, ns := ns, nsPart := nsPart, id := "", idPart := "", core := core })
      { gennum := gennum, seqnum := seqnum, flags := flags, owner := owner, data := data }

/-- `KV_KEY_DEV_READY` from ubridge.c. -/
def KV_KEY_DEV_READY : String := "#RDY"

/-- `KV_KEY_DEV_RESERVED` from ubridge.c. -/
def KV_KEY_DEV_RESERVED : String := "#RES"

/-- `sid_ucmd_dev_set_ready` from ubridge.c (called by a module, so `mod` is
non-NULL and the ready value is checked): `-EINVAL` for the undefined and
unprocessed values, `-EPERM` — without touching the store — when the current
phase lacks `CMD_SCAN_CAP_RDY`, otherwise 0 after writing the `#RDY` record
(the written enum payload is abstracted to a marker item). -/
def sidUcmdDevSetReady (phase : ScanPhase) (ready : DevReady) (st : Store) (devId : String)
    (gennum seqnum : Nat) : Int × Store :=
  if ready = .undefined then (-EINVAL, st)
  else if cmdScanPhaseCaps phase &&& CMD_SCAN_CAP_RDY == 0 then (-EPERM, st)
  else if ready = .unprocessed then (-EINVAL, st)
  else
    (0, doSidUcmdSetKv st OWNER_CORE "" .device devId KV_KEY_DEV_READY
      DEFAULT_VALUE_FLAGS_CORE gennum seqnum ["RDY"])

/-- `sid_ucmd_dev_set_reserved` from ubridge.c: `-EINVAL` for the undefined
value, `-EPERM` — without touching the store — when the current phase lacks
`CMD_SCAN_CAP_RES`, otherwise 0 after writing the `#RES` record. -/
def sidUcmdDevSetReserved (phase : ScanPhase) (resv : DevReserved) (st : Store)
    (devId : String) (gennum seqnum : Nat) : Int × Store :=
  if resv = .undefined then (-EINVAL, st)
  else if cmdScanPhaseCaps phase &&& CMD_SCAN_CAP_RES == 0 then (-EPERM, st)
  else
    (0, doSidUcmdSetKv st OWNER_CORE "" .device devId KV_KEY_DEV_RESERVED
      DEFAULT_VALUE_FLAGS_CORE gennum seqnum ["RES"])

/-! ### Protocol check (`_init_command`, `_reply_failure`) -/

/-- Modelled from the spec: `SID_PROTOCOL`, the current protocol version
("exact match required", spec section 6.1).  Its numeric value lives in an
interface header not under `src/` and is immaterial to the claims. -/
def SID_PROTOCOL : Nat := 2

/-- `SID_CMD_STATUS_FAILURE` (spec section 6.1: `FAILURE = 1`). -/
def SID_CMD_STATUS_FAILURE : Nat := 1

/--
`_reply_failure` from ubridge.c (3851-3871): only for `prot ≤ SID_PROTOCOL`
is a response attempted; `sid_buffer_add` is modelled as succeeding (it
fails only on allocation failure), and the code writes the buffer to the
connection only inside the `if ((r = sid_buffer_add(...)) < 0)` branch —
that is, only when the append failed.  First component: status words
actually written to the client; second: the return value `r`.
-/
def replyFailure (prot : Nat) : List Nat × Int :=
  if prot ≤ SID_PROTOCOL then
    let r : Int := 0
    if r < 0 then ([SID_CMD_STATUS_FAILURE], r) else ([], r)
  else ([], -1)

/-- The protocol-version gate of `_init_command` (ubridge.c:4062): the
command context is created only for an exact match. -/
def initCommandAccepts (prot : Nat) : Bool := prot == SID_PROTOCOL

/-- Outcome of one complete client message at the connection handler. -/
structure ConnOutcome where
  executed : Bool
  written : List Nat
  closed : Bool
deriving DecidableEq, Repr

/-- `_on_connection_event` (ubridge.c:3961-3972) for a complete message:
when `_create_command_resource` fails (here: the protocol gate of
`_init_command`), `_reply_failure` runs and a negative return tears the
connection down (`_connection_cleanup`). -/
def onConnectionMsg (prot : Nat) : ConnOutcome :=
  if initCommandAccepts prot then { executed := true, written := [], closed := false }
  else
    let r := replyFailure prot
    { executed := false, written := r.1, closed := decide (r.2 < 0) }

/-! ### Udev environment import (`_device_add_field`, `_parse_cmd_udev_env`) -/

/-- `udev_action_t`. -/
inductive UdevAction where
  | unknown
  | add
  | change
  | remove
  | move
  | online
  | offline
  | bind
  | unbind
deriving DecidableEq, Repr

/-- Lower-casing of a byte string (for `strcasecmp`). -/
def strToLower (s : String) : String := String.mk (s.data.map Char.toLower)

/-- `util_udev_str_to_udev_action` from util.c; `strcasecmp` is modelled via
lower-casing, the action string values (from a header not under `src/`) are
the standard udev action names. -/
def utilUdevStrToUdevAction (s : String) : UdevAction :=
  let t := strToLower s
  if t = "add" then .add
  else if t = "change" then .change
  else if t = "remove" then .remove
  else if t = "move" then .move
  else if t = "online" then .online
  else if t = "offline" then .offline
  else if t = "bind" then .bind
  else if t = "unbind" then .unbind
  else .unknown

/-- `udev_devtype_t`. -/
inductive UdevDevtype where
  | unknown
  | disk
  | partition
deriving DecidableEq, Repr

/-- `util_udev_str_to_udev_devtype` from util.c. -/
def utilUdevStrToUdevDevtype (s : String) : UdevDevtype :=
  let t := strToLower s
  if t = "disk" then .disk
  else if t = "partition" then .partition
  else .unknown

/-- `struct udevice` from ubridge.c (the mirrored fields). -/
structure UDevice where
  action : UdevAction := .unknown
  path : String := ""
  name : String := ""
  devtype : UdevDevtype := .unknown
  seqnum : Nat := 0
  diskseq : Nat := 0
  synthUuid : String := ""
deriving DecidableEq, Repr

/-- `util_str_rstr(value, "/")` from util.c: the last position `> 0` at
which the needle occurs (position 0 is never checked by the loop). -/
def strRstrSlashIdx (cs : List Char) : Option Nat :=
  ((List.range cs.length).filter fun i => decide (0 < i) && (cs.get? i == some '/')).getLast?

/-- The `name` assignment of `_device_add_field` (`util_str_rstr` + 1): the
part of the devpath after its last slash (a devpath without an inner slash
would make the C code increment a NULL pointer and is left as `""`). -/
def devpathName (value : String) : String :=
  match strRstrSlashIdx value.data with
  | some i => String.mk (value.data.drop (i + 1))
  | none => ""

/-- `strtoull(value, NULL, 10)`: the leading decimal digits. -/
def strtoullDec (s : String) : Nat :=
  (s.data.takeWhile fun c => c.isDigit).foldl (fun a c => a * 10 + (c.toNat - 48)) 0

/-- The `KEY=VALUE` split of `_device_add_field`: first `=`, non-empty
value required. -/
def splitKvPair (s : String) : Option (String × String) :=
  match s.data.findIdx? (fun c => c = '=') with
  | none => none
  | some i =>
    let key := String.mk (s.data.take i)
    let value := String.mk (s.data.drop (i + 1))
    if value = "" then none else some (key, value)

/--
`_device_add_field` from ubridge.c (2533-2567): the pair is stored with
`_do_sid_ucmd_set_kv(NULL, ucmd_ctx, NULL, KV_NS_UDEV, key, 0, value, ...)`
— owner core, empty domain, namespace UDEV and a flags argument of `0`
(`KV_FLAGS_UNSET`) — and the recognized keys are mirrored into the udevice
structure.
-/
def deviceAddField (st : Store) (dev : UDevice) (devId : String) (gennum : Nat)
    (start : String) : Option (Store × UDevice) :=
  match splitKvPair start with
  | none => none
  | some (key, value) =>
    let st1 := doSidUcmdSetKv st OWNER_CORE "" .udev devId key 0 gennum dev.seqnum [value]
    let dev1 :=
      if key = "ACTION" then { dev with action := utilUdevStrToUdevAction value }
      else if key = "DEVPATH" then { dev with path := value, name := devpathName value }
      else if key = "DEVTYPE" then { dev with devtype := utilUdevStrToUdevDevtype value }
      else if key = "SEQNUM" then { dev with seqnum := strtoullDec value }
      else if key = "DISKSEQ" then { dev with diskseq := strtoullDec value }
      else if key = "SYNTH_UUID" then { dev with synthUuid := value }
      else dev
    some (st1, dev1)

/-- The `KEY=VALUE` loop of `_parse_cmd_udev_env` (the `dev_t` prefix is
already consumed); a failing field aborts the parse. -/
def parseCmdUdevEnv (st : Store) (dev : UDevice) (devId : String) (gennum : Nat) :
    List String → Option (Store × UDevice)
  | [] => some (st, dev)
  | e :: es =>
    match deviceAddField st dev devId gennum e with
    | none => none
    | some r => parseCmdUdevEnv r.1 r.2 devId gennum es

/-! ### Concrete instances used by the counterexamples and witnesses -/

/-- The empty store. -/
def emptyStore : Store := fun _ => none

/-- Current-key spec of a group-members mutation
(`_handle_current_dev_for_group`): user domain, global namespace, core
`#GMB`. -/
def c2CurSpec : KvKeySpec :=
  { op := .set, dom := "USR", ns := .global, nsPart := "", id := "grp", idPart := "", core := "#GMB" }

/-- Relative-key spec of the same mutation: device namespace, core `#GIN`. -/
def c2RelSpec : KvKeySpec :=
  { op := .set, dom := "", ns := .device, nsPart := "8_0", id := "", idPart := "", core := "#GIN" }

/-- The neighbor item: the relative key's prefix, as prepared by
`_handle_current_dev_for_group`. -/
def c2Item : String := composeKeyPfx c2RelSpec

/-- The vector passed to `_kv_delta_set` by the group mutation: header plus
the single neighbor item. -/
def c2V : VValue :=
  { gennum := 1, seqnum := 7, flags := valueFlagsNoSync, owner := OWNER_CORE, data := [c2Item] }

/-- Store after adding device `8_0` to group `grp` (`KV_OP_PLUS` with
`DELTA_WITH_DIFF | DELTA_WITH_REL`). -/
def c2St1 : Store := kvDeltaSet emptyStore c2CurSpec c2RelSpec .plus c2V OWNER_CORE

/-- Store after then removing device `8_0` from group `grp` (`KV_OP_MINUS`,
same flags). -/
def c2St2 : Store := kvDeltaSet c2St1 c2CurSpec c2RelSpec .minus c2V OWNER_CORE

/-- The group key. -/
def c2KeyK : String := composeKey c2CurSpec

/-- The reciprocal (`#GIN`) key of device `8_0`. -/
def c2RecipKey : String := composeKey c2RelSpec

/-- The group key's prefix, the payload of the reciprocal records. -/
def c2PfxK : String := composeKeyPfx c2CurSpec

/-! ## Helper lemmas -/

/-- Induction principle following the shape of the merge walks. -/
theorem walkPairInd (P : List String → List String → Prop)
    (h1 : P [] [])
    (h2 : ∀ n ns, P [] ns → P [] (n :: ns))
    (h3 : ∀ o os, P os [] → P (o :: os) [])
    (h4 : ∀ o os n ns, o < n → P os (n :: ns) → P (o :: os) (n :: ns))
    (h5 : ∀ o os n ns, n < o → P (o :: os) ns → P (o :: os) (n :: ns))
    (h6 : ∀ o os n ns, ¬ o < n → ¬ n < o → P os ns → P (o :: os) (n :: ns)) :
    ∀ O N, P O N
  | [], [] => h1
  | [], n :: ns => h2 n ns (walkPairInd P h1 h2 h3 h4 h5 h6 [] ns)
  | o :: os, [] => h3 o os (walkPairInd P h1 h2 h3 h4 h5 h6 os [])
  | o :: os, n :: ns =>
    if h : o < n then h4 o os n ns h (walkPairInd P h1 h2 h3 h4 h5 h6 os (n :: ns))
    else if h' : n < o then h5 o os n ns h' (walkPairInd P h1 h2 h3 h4 h5 h6 (o :: os) ns)
    else h6 o os n ns h h' (walkPairInd P h1 h2 h3 h4 h5 h6 os ns)
termination_by O N => O.length + N.length

/-- In a strictly sorted list the head is a lower bound. -/
theorem pairwiseHeadLe {n x : String} {ns : List String}
    (hN : (n :: ns).Pairwise (· < ·)) (hx : x ∈ n :: ns) : n ≤ x := by
  rcases List.mem_cons.mp hx with rfl | hx
  · exact le_refl x
  · exact le_of_lt (List.rel_of_pairwise_cons hN hx)

/-- Anything below the head of a strictly sorted list is not a member. -/
theorem headNotMemSorted {o n : String} {ns : List String}
    (h : o < n) (hN : (n :: ns).Pairwise (· < ·)) : o ∉ n :: ns := fun hmem =>
  absurd (pairwiseHeadLe hN hmem) (not_le.mpr h)

/-- Every member of a strictly sorted list differs from anything below its
head. -/
theorem allNeOfLtSorted {o n : String} {ns : List String}
    (h : o < n) (hN : (n :: ns).Pairwise (· < ·)) : ∀ x ∈ n :: ns, x ≠ o :=
  fun _ hx => ne_of_gt (lt_of_lt_of_le h (pairwiseHeadLe hN hx))

/-- Push a shared head through a membership equivalence. -/
theorem consCongrIff {α : Type} {x a : α} {f L : List α}
    (hiff : x ∈ f ↔ x ∈ L) : x ∈ a :: f ↔ x ∈ a :: L := by
  simp only [List.mem_cons, hiff]

/-- Extending the complement list by a never-occurring element. -/
theorem iffAndNotConsOfNe {α : Type} {x a : α} {p L e : List α}
    (hiff : x ∈ p ↔ x ∈ L ∧ x ∉ e) (hne : x ∈ L → x ≠ a) :
    x ∈ p ↔ x ∈ L ∧ x ∉ a :: e := by
  rw [hiff]
  constructor
  · rintro ⟨hL, he⟩
    refine ⟨hL, fun hmem => ?_⟩
    rcases List.mem_cons.mp hmem with rfl | hin
    · exact hne hL rfl
    · exact he hin
  · rintro ⟨hL, he⟩
    exact ⟨hL, fun hin => he (List.mem_cons_of_mem a hin)⟩

/-- Adding the same new head on both sides of `∈ e ∧ ∉ L`. -/
theorem iffConsAndNot {α : Type} {x a : α} {m L e : List α}
    (hiff : x ∈ m ↔ x ∈ e ∧ x ∉ L) (ha : a ∉ L) :
    x ∈ a :: m ↔ x ∈ a :: e ∧ x ∉ L := by
  rw [List.mem_cons, hiff]
  constructor
  · rintro (rfl | ⟨he, hL⟩)
    · exact ⟨List.mem_cons_self _ _, ha⟩
    · exact ⟨List.mem_cons_of_mem a he, hL⟩
  · rintro ⟨hx, hL⟩
    rcases List.mem_cons.mp hx with rfl | he
    · exact Or.inl rfl
    · exact Or.inr ⟨he, hL⟩

/-- Adding an equal head to the member list and to its complement list. -/
theorem iffAndNotConsCons {α : Type} {x a : α} {p L e : List α}
    (hiff : x ∈ p ↔ x ∈ L ∧ x ∉ e) (hne : x ∈ L → x ≠ a) :
    x ∈ p ↔ x ∈ a :: L ∧ x ∉ a :: e := by
  rw [hiff]
  constructor
  · rintro ⟨hL, he⟩
    refine ⟨List.mem_cons_of_mem a hL, fun hmem => ?_⟩
    rcases List.mem_cons.mp hmem with rfl | hin
    · exact hne hL rfl
    · exact he hin
  · rintro ⟨hx, he⟩
    rcases List.mem_cons.mp hx with rfl | hL
    · exact absurd (List.mem_cons_self x e) he
    · exact ⟨hL, fun hin => he (List.mem_cons_of_mem a hin)⟩

/-- Push a new head into the left branch of a union. -/
theorem consOrLeft {α : Type} {x a : α} {f L e : List α}
    (hiff : x ∈ f ↔ x ∈ e ∨ x ∈ L) : x ∈ a :: f ↔ x ∈ a :: e ∨ x ∈ L := by
  simp only [List.mem_cons, hiff]
  tauto

/-- Push a new head into the right branch of a union. -/
theorem consOrRight {α : Type} {x a : α} {f L e : List α}
    (hiff : x ∈ f ↔ x ∈ e ∨ x ∈ L) : x ∈ a :: f ↔ x ∈ e ∨ x ∈ a :: L := by
  simp only [List.mem_cons, hiff]
  tauto

/-- Push a shared head into both branches of a union. -/
theorem consOrBoth {α : Type} {x a : α} {f L e : List α}
    (hiff : x ∈ f ↔ x ∈ e ∨ x ∈ L) : x ∈ a :: f ↔ x ∈ a :: e ∨ x ∈ a :: L := by
  simp only [List.mem_cons, hiff]
  tauto

/-- Extending the intersected list by a never-occurring element. -/
theorem iffAndMemConsOfNe {α : Type} {x a : α} {m L e : List α}
    (hiff : x ∈ m ↔ x ∈ L ∧ x ∈ e) (hne : x ∈ L → x ≠ a) :
    x ∈ m ↔ x ∈ L ∧ x ∈ a :: e := by
  rw [hiff]
  constructor
  · rintro ⟨hL, he⟩
    exact ⟨hL, List.mem_cons_of_mem a he⟩
  · rintro ⟨hL, he⟩
    rcases List.mem_cons.mp he with rfl | he
    · exact absurd rfl (hne hL)
    · exact ⟨hL, he⟩

/-- Extending the other intersected list by an element outside the first. -/
theorem iffAndMemConsNotMem {α : Type} {x a : α} {m L e : List α}
    (hiff : x ∈ m ↔ x ∈ L ∧ x ∈ e) (ha : a ∉ e) :
    x ∈ m ↔ x ∈ a :: L ∧ x ∈ e := by
  rw [hiff]
  constructor
  · rintro ⟨hL, he⟩
    exact ⟨List.mem_cons_of_mem a hL, he⟩
  · rintro ⟨hL, he⟩
    rcases List.mem_cons.mp hL with rfl | hL
    · exact absurd he ha
    · exact ⟨hL, he⟩

/-- Push a shared head through both sides of an intersection. -/
theorem consAndMemBoth {α : Type} {x a : α} {m L e : List α}
    (hiff : x ∈ m ↔ x ∈ L ∧ x ∈ e) : x ∈ a :: m ↔ x ∈ a :: L ∧ x ∈ a :: e := by
  rw [List.mem_cons, hiff]
  constructor
  · rintro (rfl | ⟨hL, he⟩)
    · exact ⟨List.mem_cons_self _ _, List.mem_cons_self _ _⟩
    · exact ⟨List.mem_cons_of_mem a hL, List.mem_cons_of_mem a he⟩
  · rintro ⟨hL, he⟩
    rcases List.mem_cons.mp hL with rfl | hL
    · exact Or.inl rfl
    · rcases List.mem_cons.mp he with rfl | he
      · exact Or.inl rfl
      · exact Or.inr ⟨hL, he⟩

/-- The `KV_OP_SET` walk on strictly sorted vectors, as the spec table puts
it: an item only in the old vector goes to `delta->minus`, an item only in
the new vector to `delta->plus` and `delta->final`, an item in both to
`delta->final` — so `plus` holds the items of `N` outside `O`, `minus` the
items of `O` outside `N`, and `final` exactly the items of `N`. -/
theorem walkSetMem : ∀ O N : List String, O.Pairwise (· < ·) → N.Pairwise (· < ·) →
    ∃ p m f, deltaStepWalk .set O N = some (p, m, f) ∧
      ∀ x, (x ∈ p ↔ x ∈ N ∧ x ∉ O) ∧ (x ∈ m ↔ x ∈ O ∧ x ∉ N) ∧ (x ∈ f ↔ x ∈ N) := by
  refine walkPairInd (fun O N => O.Pairwise (· < ·) → N.Pairwise (· < ·) →
    ∃ p m f, deltaStepWalk .set O N = some (p, m, f) ∧
      ∀ x, (x ∈ p ↔ x ∈ N ∧ x ∉ O) ∧ (x ∈ m ↔ x ∈ O ∧ x ∉ N) ∧ (x ∈ f ↔ x ∈ N))
    ?_ ?_ ?_ ?_ ?_ ?_
  · intro _ _
    refine ⟨[], [], [], ?_, by simp⟩
    simp only [deltaStepWalk]
  · intro n ns ih _ hN
    obtain ⟨p, m, f, hr, hm⟩ := ih List.Pairwise.nil (List.Pairwise.of_cons hN)
    refine ⟨n :: p, m, n :: f, ?_, fun x => ?_⟩
    · simp only [deltaStepWalk]
      rw [hr]
      rfl
    · obtain ⟨h1, h2, h3⟩ := hm x
      exact ⟨iffConsAndNot h1 (List.not_mem_nil n), by simpa using h2, consCongrIff h3⟩
  · intro o os ih hO _
    obtain ⟨p, m, f, hr, hm⟩ := ih (List.Pairwise.of_cons hO) List.Pairwise.nil
    refine ⟨p, o :: m, f, ?_, fun x => ?_⟩
    · simp only [deltaStepWalk]
      rw [hr]
      rfl
    · obtain ⟨h1, h2, h3⟩ := hm x
      exact ⟨by simpa using h1, iffConsAndNot h2 (List.not_mem_nil o), h3⟩
  · intro o os n ns h ih hO hN
    obtain ⟨p, m, f, hr, hm⟩ := ih (List.Pairwise.of_cons hO) hN
    refine ⟨p, o :: m, f, ?_, fun x => ?_⟩
    · simp only [deltaStepWalk]
      rw [if_pos h, hr]
      rfl
    · obtain ⟨h1, h2, h3⟩ := hm x
      exact ⟨iffAndNotConsOfNe h1 (fun hx => allNeOfLtSorted h hN x hx),
        iffConsAndNot h2 (headNotMemSorted h hN), h3⟩
  · intro o os n ns h ih hO hN
    obtain ⟨p, m, f, hr, hm⟩ := ih hO (List.Pairwise.of_cons hN)
    refine ⟨n :: p, m, n :: f, ?_, fun x => ?_⟩
    · simp only [deltaStepWalk]
      rw [if_neg (asymm h), if_pos h, hr]
      rfl
    · obtain ⟨h1, h2, h3⟩ := hm x
      exact ⟨iffConsAndNot h1 (headNotMemSorted h hO),
        iffAndNotConsOfNe h2 (fun hx => ne_of_gt (lt_of_lt_of_le h (pairwiseHeadLe hO hx))),
        consCongrIff h3⟩
  · intro o os n ns h h' ih hO hN
    have heq : o = n := le_antisymm (not_lt.mp h') (not_lt.mp h)
    subst heq
    obtain ⟨p, m, f, hr, hm⟩ := ih (List.Pairwise.of_cons hO) (List.Pairwise.of_cons hN)
    refine ⟨p, m, o :: f, ?_, fun x => ?_⟩
    · simp only [deltaStepWalk]
      rw [if_neg h, if_neg h', hr]
      rfl
    · obtain ⟨h1, h2, h3⟩ := hm x
      exact ⟨iffAndNotConsCons h1 (fun hx => ne_of_gt (List.rel_of_pairwise_cons hN hx)),
        iffAndNotConsCons h2 (fun hx => ne_of_gt (List.rel_of_pairwise_cons hO hx)),
        consCongrIff h3⟩

/-- The `KV_OP_PLUS` walk on strictly sorted vectors, as the spec table puts
it: an item only in the old vector goes to `delta->final`, an item only in
the new vector to `delta->plus` and `delta->final`, an item in both to
`delta->final` — so `minus` stays empty and `final` is the union. -/
theorem walkPlusMem : ∀ O N : List String, O.Pairwise (· < ·) → N.Pairwise (· < ·) →
    ∃ p f, deltaStepWalk .plus O N = some (p, [], f) ∧
      ∀ x, (x ∈ p ↔ x ∈ N ∧ x ∉ O) ∧ (x ∈ f ↔ x ∈ O ∨ x ∈ N) := by
  refine walkPairInd (fun O N => O.Pairwise (· < ·) → N.Pairwise (· < ·) →
    ∃ p f, deltaStepWalk .plus O N = some (p, [], f) ∧
      ∀ x, (x ∈ p ↔ x ∈ N ∧ x ∉ O) ∧ (x ∈ f ↔ x ∈ O ∨ x ∈ N)) ?_ ?_ ?_ ?_ ?_ ?_
  · intro _ _
    refine ⟨[], [], ?_, by simp⟩
    simp only [deltaStepWalk]
  · intro n ns ih _ hN
    obtain ⟨p, f, hr, hm⟩ := ih List.Pairwise.nil (List.Pairwise.of_cons hN)
    refine ⟨n :: p, n :: f, ?_, fun x => ?_⟩
    · simp only [deltaStepWalk]
      rw [hr]
      rfl
    · obtain ⟨h1, h2⟩ := hm x
      exact ⟨iffConsAndNot h1 (List.not_mem_nil n), consOrRight h2⟩
  · intro o os ih hO _
    obtain ⟨p, f, hr, hm⟩ := ih (List.Pairwise.of_cons hO) List.Pairwise.nil
    refine ⟨p, o :: f, ?_, fun x => ?_⟩
    · simp only [deltaStepWalk]
      rw [hr]
      rfl
    · obtain ⟨h1, h2⟩ := hm x
      exact ⟨by simpa using h1, consOrLeft h2⟩
  · intro o os n ns h ih hO hN
    obtain ⟨p, f, hr, hm⟩ := ih (List.Pairwise.of_cons hO) hN
    refine ⟨p, o :: f, ?_, fun x => ?_⟩
    · simp only [deltaStepWalk]
      rw [if_pos h, hr]
      rfl
    · obtain ⟨h1, h2⟩ := hm x
      exact ⟨iffAndNotConsOfNe h1 (fun hx => allNeOfLtSorted h hN x hx), consOrLeft h2⟩
  · intro o os n ns h ih hO hN
    obtain ⟨p, f, hr, hm⟩ := ih hO (List.Pairwise.of_cons hN)
    refine ⟨n :: p, n :: f, ?_, fun x => ?_⟩
    · simp only [deltaStepWalk]
      rw [if_neg (asymm h), if_pos h, hr]
      rfl
    · obtain ⟨h1, h2⟩ := hm x
      exact ⟨iffConsAndNot h1 (headNotMemSorted h hO), consOrRight h2⟩
  · intro o os n ns h h' ih hO hN
    have heq : o = n := le_antisymm (not_lt.mp h') (not_lt.mp h)
    subst heq
    obtain ⟨p, f, hr, hm⟩ := ih (List.Pairwise.of_cons hO) (List.Pairwise.of_cons hN)
    refine ⟨p, o :: f, ?_, fun x => ?_⟩
    · simp only [deltaStepWalk]
      rw [if_neg h, if_neg h', hr]
      rfl
    · obtain ⟨h1, h2⟩ := hm x
      exact ⟨iffAndNotConsCons h1 (fun hx => ne_of_gt (List.rel_of_pairwise_cons hN hx)),
        consOrBoth h2⟩

/-- The `KV_OP_MINUS` walk on strictly sorted vectors, as the spec table
puts it: an item only in the old vector goes to `delta->final`, an item
only in the new vector is ignored, an item in both goes to `delta->minus` —
so `plus` stays empty, `minus` is the intersection and `final` keeps the
old items outside the new vector. -/
theorem walkMinusMem : ∀ O N : List String, O.Pairwise (· < ·) → N.Pairwise (· < ·) →
    ∃ m f, deltaStepWalk .minus O N = some ([], m, f) ∧
      ∀ x, (x ∈ m ↔ x ∈ N ∧ x ∈ O) ∧ (x ∈ f ↔ x ∈ O ∧ x ∉ N) := by
  refine walkPairInd (fun O N => O.Pairwise (· < ·) → N.Pairwise (· < ·) →
    ∃ m f, deltaStepWalk .minus O N = some ([], m, f) ∧
      ∀ x, (x ∈ m ↔ x ∈ N ∧ x ∈ O) ∧ (x ∈ f ↔ x ∈ O ∧ x ∉ N)) ?_ ?_ ?_ ?_ ?_ ?_
  · intro _ _
    refine ⟨[], [], ?_, by simp⟩
    simp only [deltaStepWalk]
  · intro n ns ih _ hN
    obtain ⟨m, f, hr, hm⟩ := ih List.Pairwise.nil (List.Pairwise.of_cons hN)
    refine ⟨m, f, ?_, fun x => ?_⟩
    · simp only [deltaStepWalk]
      exact hr
    · obtain ⟨h1, h2⟩ := hm x
      exact ⟨by simpa using h1, by simpa using h2⟩
  · intro o os ih hO _
    obtain ⟨m, f, hr, hm⟩ := ih (List.Pairwise.of_cons hO) List.Pairwise.nil
    refine ⟨m, o :: f, ?_, fun x => ?_⟩
    · simp only [deltaStepWalk]
      rw [hr]
      rfl
    · obtain ⟨h1, h2⟩ := hm x
      exact ⟨by simpa using h1, iffConsAndNot h2 (List.not_mem_nil o)⟩
  · intro o os n ns h ih hO hN
    obtain ⟨m, f, hr, hm⟩ := ih (List.Pairwise.of_cons hO) hN
    refine ⟨m, o :: f, ?_, fun x => ?_⟩
    · simp only [deltaStepWalk]
      rw [if_pos h, hr]
      rfl
    · obtain ⟨h1, h2⟩ := hm x
      exact ⟨iffAndMemConsOfNe h1 (fun hx => allNeOfLtSorted h hN x hx),
        iffConsAndNot h2 (headNotMemSorted h hN)⟩
  · intro o os n ns h ih hO hN
    obtain ⟨m, f, hr, hm⟩ := ih hO (List.Pairwise.of_cons hN)
    refine ⟨m, f, ?_, fun x => ?_⟩
    · simp only [deltaStepWalk]
      rw [if_neg (asymm h), if_pos h]
      exact hr
    · obtain ⟨h1, h2⟩ := hm x
      exact ⟨iffAndMemConsNotMem h1 (headNotMemSorted h hO),
        iffAndNotConsOfNe h2 (fun hx => ne_of_gt (lt_of_lt_of_le h (pairwiseHeadLe hO hx)))⟩
  · intro o os n ns h h' ih hO hN
    have heq : o = n := le_antisymm (not_lt.mp h') (not_lt.mp h)
    subst heq
    obtain ⟨m, f, hr, hm⟩ := ih (List.Pairwise.of_cons hO) (List.Pairwise.of_cons hN)
    refine ⟨o :: m, f, ?_, fun x => ?_⟩
    · simp only [deltaStepWalk]
      rw [if_neg h, if_neg h', hr]
      rfl
    · obtain ⟨h1, h2⟩ := hm x
      exact ⟨consAndMemBoth h1,
        iffAndNotConsCons h2 (fun hx => ne_of_gt (List.rel_of_pairwise_cons hO hx))⟩


/-- The cross-bitmap walk keeps one flag per data item on each side. -/
theorem crossWalkLen : ∀ O N : List String,
    (crossWalk O N).1.length = O.length ∧ (crossWalk O N).2.length = N.length := by
  refine walkPairInd (fun O N =>
    (crossWalk O N).1.length = O.length ∧ (crossWalk O N).2.length = N.length)
    ?_ ?_ ?_ ?_ ?_ ?_
  · simp [crossWalk]
  · intro n ns _
    simp [crossWalk]
  · intro o os _
    simp [crossWalk]
  · intro o os n ns h ih
    simp only [crossWalk]
    rw [if_pos h]
    simp [ih.1, ih.2]
  · intro o os n ns h ih
    simp only [crossWalk]
    rw [if_neg (asymm h), if_pos h]
    simp [ih.1, ih.2]
  · intro o os n ns h h' ih
    simp only [crossWalk]
    rw [if_neg h, if_neg h']
    simp [ih.1, ih.2]

/-- `keepOldFlags` yields one flag per item of the stored vector. -/
theorem keepOldFlagsLen (o : List String) (nw : Option (List String)) :
    (keepOldFlags o nw).length = o.length := by
  cases nw with
  | none => simp [keepOldFlags]
  | some n => simpa [keepOldFlags] using (crossWalkLen o n).1

/-- `keepNewFlags` yields one flag per item of the delta vector. -/
theorem keepNewFlagsLen (od : Option (List String)) (n : List String) :
    (keepNewFlags od n).length = n.length := by
  cases od with
  | none => simp [keepNewFlags]
  | some o => simpa [keepNewFlags] using (crossWalkLen o n).2

/-- `keptByFlags` keeps exactly the set-bit positions. -/
theorem keptLen : ∀ (l : List String) (bs : List Bool), bs.length = l.length →
    (keptByFlags l bs).length = countTrue bs := by
  intro l
  induction l with
  | nil =>
    intro bs h
    cases bs with
    | nil => simp [keptByFlags, countTrue]
    | cons b bs => simp at h
  | cons x l ih =>
    intro bs h
    cases bs with
    | nil => simp at h
    | cons b bs =>
      have h' : bs.length = l.length := by simpa using h
      have ihh := ih bs h'
      simp only [keptByFlags, countTrue] at ihh ⊢
      cases b <;>
        simp [List.zip_cons_cons, List.filterMap_cons, List.count_cons, ihh]

/-- Inserting into a sorted list grows it by one. -/
theorem insertSortedLen (x : String) : ∀ l : List String,
    (insertSorted x l).length = l.length + 1
  | [] => by simp [insertSorted]
  | y :: ys => by
    by_cases h : x ≤ y
    · simp [insertSorted, h]
    · simp [insertSorted, h, insertSortedLen x ys]

/-- Sorting preserves the number of items. -/
theorem sortVDataLen : ∀ l : List String, (sortVData l).length = l.length
  | [] => by simp [sortVData]
  | x :: xs => by
    have := sortVDataLen xs
    simp [sortVData] at this ⊢
    rw [insertSortedLen, this]

/-- An illegal operation aborts the walk as soon as any data item is at
hand. -/
theorem walkIllegalNe : ∀ O N : List String, O ≠ [] ∨ N ≠ [] →
    deltaStepWalk .illegal O N = none := by
  intro O N h
  match O, N with
  | [], [] => simp at h
  | [], n :: ns => simp only [deltaStepWalk]
  | o :: os, [] => simp only [deltaStepWalk]
  | o :: os, n :: ns =>
    simp only [deltaStepWalk]
    split
    · rfl
    · split <;> rfl

/-- The `KV_OP_SET` walk always succeeds and its final vector is the new
vector, for arbitrary (not necessarily sorted) inputs. -/
theorem walkSetFinal : ∀ O N : List String,
    ∃ p m, deltaStepWalk .set O N = some (p, m, N) := by
  refine walkPairInd (fun O N => ∃ p m, deltaStepWalk .set O N = some (p, m, N)) ?_ ?_ ?_ ?_ ?_ ?_
  · refine ⟨[], [], ?_⟩
    simp only [deltaStepWalk]
  · intro n ns ih
    obtain ⟨p, m, hr⟩ := ih
    refine ⟨n :: p, m, ?_⟩
    simp only [deltaStepWalk]
    rw [hr]
    rfl
  · intro o os ih
    obtain ⟨p, m, hr⟩ := ih
    refine ⟨p, o :: m, ?_⟩
    simp only [deltaStepWalk]
    rw [hr]
    rfl
  · intro o os n ns h ih
    obtain ⟨p, m, hr⟩ := ih
    refine ⟨p, o :: m, ?_⟩
    simp only [deltaStepWalk]
    rw [if_pos h, hr]
    rfl
  · intro o os n ns h ih
    obtain ⟨p, m, hr⟩ := ih
    refine ⟨n :: p, m, ?_⟩
    simp only [deltaStepWalk]
    rw [if_neg (asymm h), if_pos h, hr]
    rfl
  · intro o os n ns h h' ih
    obtain ⟨p, m, hr⟩ := ih
    refine ⟨p, m, ?_⟩
    simp only [deltaStepWalk]
    rw [if_neg h, if_neg h', hr]
    rfl

/-- Walking identical vectors under `KV_OP_SET` touches only the
`item in both` row of the table: plus and minus stay empty. -/
theorem walkSetSelf : ∀ v : List String, deltaStepWalk .set v v = some ([], [], v)
  | [] => by simp only [deltaStepWalk]
  | x :: xs => by
    simp only [deltaStepWalk]
    rw [if_neg (lt_irrefl x), if_neg (lt_irrefl x), walkSetSelf xs]
    rfl


/-! ## Claim theorems -/

/-- C1 (counterexample): when both the old and the new vector carry no data
items, the merge walk never inspects the operation, so `_delta_step_calc`
succeeds even for `KV_OP_ILLEGAL` and `_kv_cb_delta_step` commits a
header-only record — the illegal op does not abort the mutation. -/
theorem illegalOpEmptyCommits :
    deltaStepCalc .illegal [] [] = some (none, none, []) ∧
    kvDeltaSetPlain .illegal emptyStore "k"
        { gennum := 1, seqnum := 1, flags := 0, owner := "m", data := [] } "k"
      = some { gennum := 1, seqnum := 1, flags := 0, owner := "m", data := [] } := by
  constructor
  · simp [deltaStepCalc, deltaStepWalk, destroyUnused]
  · simp [kvDeltaSetPlain, deltaStepApply, deltaStepCalc, deltaStepWalk, destroyUnused,
      updateStore, storeData, emptyStore]

/-- C1 (amended): for every mutation of a vector-valued key with strictly
sorted old vector `O` and new vector `N`, the delta engine merge-walks both
vectors comparing item value bytes lexicographically (header slots
excluded) and produces delta.plus/minus/final exactly per the spec table
for SET, PLUS and MINUS; an illegal op aborts the mutation whenever at
least one data item is present (with no data items at all, the walk never
inspects the op and a header-only final vector is committed). -/
theorem deltaStepTable (O N : List String)
    (hO : O.Pairwise (· < ·)) (hN : N.Pairwise (· < ·)) :
    (∃ p m f, deltaStepWalk .set O N = some (p, m, f) ∧
      ∀ x, (x ∈ p ↔ x ∈ N ∧ x ∉ O) ∧ (x ∈ m ↔ x ∈ O ∧ x ∉ N) ∧ (x ∈ f ↔ x ∈ N)) ∧
    (∃ p f, deltaStepWalk .plus O N = some (p, [], f) ∧
      ∀ x, (x ∈ p ↔ x ∈ N ∧ x ∉ O) ∧ (x ∈ f ↔ x ∈ O ∨ x ∈ N)) ∧
    (∃ m f, deltaStepWalk .minus O N = some ([], m, f) ∧
      ∀ x, (x ∈ m ↔ x ∈ N ∧ x ∈ O) ∧ (x ∈ f ↔ x ∈ O ∧ x ∉ N)) ∧
    (O ≠ [] ∨ N ≠ [] → deltaStepWalk .illegal O N = none) :=
  ⟨walkSetMem O N hO hN, walkPlusMem O N hO hN, walkMinusMem O N hO hN, walkIllegalNe O N⟩

/-- Witness for C1 at the sorted vectors `["a", "c"]` and `["b", "c"]`. -/
theorem deltaStepTableWitness :
    (["a", "c"] : List String).Pairwise (· < ·) ∧
    (["b", "c"] : List String).Pairwise (· < ·) ∧
    ((∃ p m f, deltaStepWalk .set ["a", "c"] ["b", "c"] = some (p, m, f) ∧
      ∀ x, (x ∈ p ↔ x ∈ (["b", "c"] : List String) ∧ x ∉ (["a", "c"] : List String)) ∧
        (x ∈ m ↔ x ∈ (["a", "c"] : List String) ∧ x ∉ (["b", "c"] : List String)) ∧
        (x ∈ f ↔ x ∈ (["b", "c"] : List String))) ∧
    (∃ p f, deltaStepWalk .plus ["a", "c"] ["b", "c"] = some (p, [], f) ∧
      ∀ x, (x ∈ p ↔ x ∈ (["b", "c"] : List String) ∧ x ∉ (["a", "c"] : List String)) ∧
        (x ∈ f ↔ x ∈ (["a", "c"] : List String) ∨ x ∈ (["b", "c"] : List String))) ∧
    (∃ m f, deltaStepWalk .minus ["a", "c"] ["b", "c"] = some ([], m, f) ∧
      ∀ x, (x ∈ m ↔ x ∈ (["b", "c"] : List String) ∧ x ∈ (["a", "c"] : List String)) ∧
        (x ∈ f ↔ x ∈ (["a", "c"] : List String) ∧ x ∉ (["b", "c"] : List String))) ∧
    ((["a", "c"] : List String) ≠ [] ∨ (["b", "c"] : List String) ≠ [] →
      deltaStepWalk .illegal ["a", "c"] ["b", "c"] = none)) :=
  ⟨by simp; decide, by simp; decide,
    deltaStepTable ["a", "c"] ["b", "c"] (by simp; decide) (by simp; decide)⟩

/-- C5: delta idempotence — `SET(v)` commits `v` as the final vector
whatever the old vector was (the owner in the header plays no role in the
walk, which excludes header slots), and a second `SET` with the identical
vector leaves both `delta->plus` and `delta->minus` data-empty, so
`_destroy_unused_delta_buffers` destroys them (NULL, i.e. `none`), and the
final vector is again `v`. -/
theorem deltaSetIdempotent : ∀ O v : List String,
    (∃ p m, deltaStepWalk .set O v = some (p, m, v)) ∧
    deltaStepCalc .set v v = some (none, none, v) := by
  intro O v
  refine ⟨walkSetFinal O v, ?_⟩
  rw [deltaStepCalc, walkSetSelf v]
  cases v <;> simp [destroyUnused]

/-- C3: the `_kv_cb_overwrite` ownership policy — an absent or unflagged
record always commits; a record flagged `KV_MOD_PRIVATE` commits iff the
owners match, otherwise the mutation aborts with `-EACCES`; similarly
`KV_MOD_PROTECTED` with `-EPERM`, checked when the private flag is clear,
and `KV_MOD_RESERVED` with `-EBUSY`, checked when both other flags are
clear. -/
theorem overwritePolicy (o newv : VValue) :
    (kvCbOverwrite none newv).1 = true ∧
    (o.flags &&& KV_MOD_PRIVATE ≠ 0 →
      ((kvCbOverwrite (some o) newv).1 = true ↔ o.owner = newv.owner) ∧
      (o.owner ≠ newv.owner → kvCbOverwrite (some o) newv = (false, -EACCES))) ∧
    (o.flags &&& KV_MOD_PRIVATE = 0 → o.flags &&& KV_MOD_PROTECTED ≠ 0 →
      ((kvCbOverwrite (some o) newv).1 = true ↔ o.owner = newv.owner) ∧
      (o.owner ≠ newv.owner → kvCbOverwrite (some o) newv = (false, -EPERM))) ∧
    (o.flags &&& KV_MOD_PRIVATE = 0 → o.flags &&& KV_MOD_PROTECTED = 0 →
        o.flags &&& KV_MOD_RESERVED ≠ 0 →
      ((kvCbOverwrite (some o) newv).1 = true ↔ o.owner = newv.owner) ∧
      (o.owner ≠ newv.owner → kvCbOverwrite (some o) newv = (false, -EBUSY))) ∧
    (o.flags &&& KV_MOD_PRIVATE = 0 → o.flags &&& KV_MOD_PROTECTED = 0 →
        o.flags &&& KV_MOD_RESERVED = 0 →
      (kvCbOverwrite (some o) newv).1 = true) := by
  refine ⟨by simp [kvCbOverwrite], ?_, ?_, ?_, ?_⟩
  · intro hp
    have hp1 : (o.flags &&& KV_MOD_PRIVATE != 0) = true := by simpa using hp
    constructor
    · by_cases how : o.owner = newv.owner <;> simp [kvCbOverwrite, hp1, how]
    · intro how
      simp [kvCbOverwrite, hp1, how]
  · intro hp hq
    have hp1 : (o.flags &&& KV_MOD_PRIVATE != 0) = false := by simpa using hp
    have hq1 : (o.flags &&& KV_MOD_PROTECTED != 0) = true := by simpa using hq
    constructor
    · by_cases how : o.owner = newv.owner <;> simp [kvCbOverwrite, hp1, hq1, how]
    · intro how
      simp [kvCbOverwrite, hp1, hq1, how]
  · intro hp hq hb
    have hp1 : (o.flags &&& KV_MOD_PRIVATE != 0) = false := by simpa using hp
    have hq1 : (o.flags &&& KV_MOD_PROTECTED != 0) = false := by simpa using hq
    have hb1 : (o.flags &&& KV_MOD_RESERVED != 0) = true := by simpa using hb
    constructor
    · by_cases how : o.owner = newv.owner <;> simp [kvCbOverwrite, hp1, hq1, hb1, how]
    · intro how
      simp [kvCbOverwrite, hp1, hq1, hb1, how]
  · intro hp hq hb
    have hp1 : (o.flags &&& KV_MOD_PRIVATE != 0) = false := by simpa using hp
    have hq1 : (o.flags &&& KV_MOD_PROTECTED != 0) = false := by simpa using hq
    have hb1 : (o.flags &&& KV_MOD_RESERVED != 0) = false := by simpa using hb
    simp [kvCbOverwrite, hp1, hq1, hb1]

/-- Witness for C3: a private record owned by `a` refuses a write by `b`
with `-EACCES`, and an absent record commits. -/
theorem overwritePolicyWitness :
    ({ gennum := 0, seqnum := 0, flags := KV_MOD_PRIVATE, owner := "a", data := [] } :
        VValue).flags &&& KV_MOD_PRIVATE ≠ 0 ∧
    kvCbOverwrite
        (some { gennum := 0, seqnum := 0, flags := KV_MOD_PRIVATE, owner := "a", data := [] })
        { gennum := 0, seqnum := 0, flags := 0, owner := "b", data := [] }
      = (false, -EACCES) ∧
    (kvCbOverwrite none
        { gennum := 0, seqnum := 0, flags := 0, owner := "b", data := [] }).1 = true := by
  have h := overwritePolicy
    { gennum := 0, seqnum := 0, flags := KV_MOD_PRIVATE, owner := "a", data := [] }
    { gennum := 0, seqnum := 0, flags := 0, owner := "b", data := [] }
  exact ⟨by decide, (h.2.1 (by decide)).2 (by decide), h.1⟩

/-- C7 (counterexample): for `prot = SID_PROTOCOL + 1` the server does not
reply at all — `_reply_failure` attempts a response only for
`prot ≤ SID_PROTOCOL` — and the connection is torn down; the command is not
executed. -/
theorem protocolMismatchNoReply :
    onConnectionMsg (SID_PROTOCOL + 1) =
      { executed := false, written := [], closed := true } := by
  decide

/-- C7 (amended): if a client sends a request header whose `prot` field is
not exactly `SID_PROTOCOL`, the command is not executed; for
`prot > SID_PROTOCOL` (in particular `SID_PROTOCOL + 1`) the server sends
no response header and closes the connection, and for `prot < SID_PROTOCOL`
it sends nothing either (the success path of the buffer append skips the
write) but leaves the connection open. -/
theorem protocolMismatchHandling (prot : Nat) (hne : prot ≠ SID_PROTOCOL) :
    (onConnectionMsg prot).executed = false ∧
    (SID_PROTOCOL < prot →
      onConnectionMsg prot = { executed := false, written := [], closed := true }) ∧
    (prot ≤ SID_PROTOCOL →
      onConnectionMsg prot = { executed := false, written := [], closed := false }) := by
  have hacc : (prot == SID_PROTOCOL) = false := by simpa using hne
  refine ⟨?_, ?_, ?_⟩
  · simp [onConnectionMsg, initCommandAccepts, hacc]
  · intro hlt
    have hnle : ¬ prot ≤ SID_PROTOCOL := not_le.mpr hlt
    simp [onConnectionMsg, initCommandAccepts, hacc, replyFailure, hnle]
  · intro hle
    simp [onConnectionMsg, initCommandAccepts, hacc, replyFailure, hle]

/-- Witness for C7 at `prot = 3 = SID_PROTOCOL + 1`. -/
theorem protocolMismatchHandlingWitness :
    (3 : Nat) ≠ SID_PROTOCOL ∧
    ((onConnectionMsg 3).executed = false ∧
    (SID_PROTOCOL < 3 →
      onConnectionMsg 3 = { executed := false, written := [], closed := true }) ∧
    (3 ≤ SID_PROTOCOL →
      onConnectionMsg 3 = { executed := false, written := [], closed := false })) :=
  ⟨by decide, protocolMismatchHandling 3 (by decide)⟩

/-- C2 (code bug): relation symmetry breaks on removal.  Concretely, after
`_kv_delta_set(PLUS)` followed by `_kv_delta_set(MINUS)` of device `8_0` in
group `grp` (both without `KV_ABS_DELTA_WITH_REL` on the nested updates of
the absolute record — `_delta_update` leaves `r = -1` when the
`KV_ABS_DELTA_WITH_REL` branch is not taken, so `_kv_delta_set` skips the
`KV_OP_MINUS` update of the relatives), the group vector no longer contains
the device, yet the device's reciprocal `#GIN` record still contains the
group key prefix. -/
theorem relSymmetryBrokenOnRemoval :
    c2Item ∈ vdataAt c2St1 c2KeyK ∧
    c2PfxK ∈ vdataAt c2St1 c2RecipKey ∧
    c2Item ∉ vdataAt c2St2 c2KeyK ∧
    c2PfxK ∈ vdataAt c2St2 c2RecipKey := by
  simp +decide [c2St1, c2St2, c2KeyK, c2RecipKey, c2PfxK, c2Item, c2V, c2CurSpec, c2RelSpec,
    kvDeltaSet, deltaUpdateRel, deltaUpdateLoop, deltaUpdateNoRel, kvDeltaSetNoRel,
    deltaUpdateAbs, deltaAbsCalc, deltaStepApply, deltaStepCalc, deltaStepWalk, destroyUnused,
    absPlusItems, absMinusItems, absPlusSize, absMinusSize, initDeltaBuffer, sortVData,
    insertSorted, keptByFlags, keepOldFlags, keepNewFlags, countTrue, crossWalk, relVValue,
    absVValue, composeKey, composeKeyPfx, opToKeyPfxMap, nsToKeyPfxMap, copyNsPartFromKey,
    getOpFromKey, keyFields, splitOnChar, updateStore, removeStore, storeData, vdataAt,
    emptyStore, valueFlagsSync, valueFlagsNoSync, KV_SYNC, KV_PERSISTENT, KV_MOD_PRIVATE,
    KV_MOD_PROTECTED, KV_MOD_RESERVED, DEFAULT_VALUE_FLAGS_CORE, overwriteWrite, kvCbOverwrite,
    VVALUE_HEADER_CNT, VVALUE_SINGLE_CNT, OWNER_CORE]

/-- C4 (counterexample): a replayed `+`-keyed sync record with a lower
sequence number is routed by `_sync_main_kv_store` into the delta engine,
which performs no sequence comparison: the commit lowers the stored
sequence number of the main-store record from 5 to 3. -/
theorem syncDeltaLowersSeqnum :
    ((updateStore emptyStore ":d:D:p::c"
        { gennum := 1, seqnum := 5, flags := 0, owner := "m", data := ["b"] }) ":d:D:p::c").map
      VValue.seqnum = some 5 ∧
    (syncApplyRec
        (updateStore emptyStore ":d:D:p::c"
          { gennum := 1, seqnum := 5, flags := 0, owner := "m", data := ["b"] })
        { key := "+:d:D:p::c",
          value := .vec { gennum := 1, seqnum := 3, flags := 0, owner := "m", data := ["c"] } }).map
      (fun s => (s ":d:D:p::c").map VValue.seqnum) = some (some 3) := by
  constructor
  · simp [updateStore, emptyStore]
  · simp +decide [syncApplyRec, getOpFromKey, keyFields, splitOnChar, kvDeltaSetPlain,
      deltaStepApply, deltaStepCalc, deltaStepWalk, destroyUnused, updateStore, removeStore,
      storeData, emptyStore, mainSetWrite, mainUnsetWrite, kvCbMainSet, kvCbOverwrite,
      KV_MOD_RESERVED]

/-- C4 (amended): during sync at the main process, a record whose key has
no `+`/`-` operator and which is not an unset record is committed through
`_kv_cb_main_set` iff the stored record is absent, or the incoming sequence
number is at least the stored one and `_kv_cb_overwrite` agrees; such a
write never lowers the stored sequence number.  A `+`-keyed record,
however, is routed into the delta engine with no sequence comparison at
all. -/
theorem syncMainSetSeqRule (st : Store) (key : String) (v : VValue)
    (hop : getOpFromKey key = .set)
    (hnu : v.flags &&& KV_MOD_RESERVED ≠ 0 ∨ v.data ≠ []) :
    syncApplyRec st { key := key, value := .vec v } = some (mainSetWrite st key v) ∧
    (kvCbMainSet (st key) v = true ↔
      st key = none ∨ ∃ o, st key = some o ∧ o.seqnum ≤ v.seqnum ∧
        (kvCbOverwrite (some o) v).1 = true) ∧
    (∀ o r, st key = some o → mainSetWrite st key v key = some r → o.seqnum ≤ r.seqnum) ∧
    (∀ w, getOpFromKey w = .plus →
      syncApplyRec st { key := w, value := .vec v } =
        some (kvDeltaSetPlain .plus st (w.drop 1) v)) := by
  have hunset : (!(v.flags &&& KV_MOD_RESERVED != 0) && v.data.isEmpty) = false := by
    rcases hnu with h | h
    · have h1 : (v.flags &&& KV_MOD_RESERVED != 0) = true := by simpa using h
      simp [h1]
    · cases hd : v.data with
      | nil => exact absurd hd h
      | cons a l => simp [hd]
  refine ⟨?_, ?_, ?_, ?_⟩
  · simp [syncApplyRec, hop, hunset]
  · cases hst : st key with
    | none => simp [kvCbMainSet, hst]
    | some o => simp [kvCbMainSet, hst, kvCbOverwrite]
  · intro o r ho hr
    by_cases hc : kvCbMainSet (st key) v = true
    · have hrv : v = r := by
        simpa [mainSetWrite, hc, updateStore] using hr
      have hseq : o.seqnum ≤ v.seqnum := by
        simp [kvCbMainSet, ho] at hc
        exact hc.1
      exact hrv ▸ hseq
    · have hro : st key = some r := by
        simpa [mainSetWrite, hc] using hr
      have : o = r := by
        rw [ho] at hro
        exact Option.some_injective _ hro
      exact this ▸ Nat.le_refl _
  · intro w hw
    simp [syncApplyRec, hw, hunset]

/-- Witness for C4 at a store holding seqnum 2 under key `:a:D:x::c` and an
incoming record with seqnum 4. -/
theorem syncMainSetSeqRuleWitness :
    getOpFromKey ":a:D:x::c" = .set ∧
    (({ gennum := 0, seqnum := 4, flags := 0, owner := "w", data := ["z"] } :
        VValue).flags &&& KV_MOD_RESERVED ≠ 0 ∨
      ({ gennum := 0, seqnum := 4, flags := 0, owner := "w", data := ["z"] } :
        VValue).data ≠ []) ∧
    (syncApplyRec
        (updateStore emptyStore ":a:D:x::c"
          { gennum := 0, seqnum := 2, flags := 0, owner := "w", data := ["y"] })
        { key := ":a:D:x::c",
          value := .vec { gennum := 0, seqnum := 4, flags := 0, owner := "w", data := ["z"] } } =
      some (mainSetWrite
        (updateStore emptyStore ":a:D:x::c"
          { gennum := 0, seqnum := 2, flags := 0, owner := "w", data := ["y"] })
        ":a:D:x::c" { gennum := 0, seqnum := 4, flags := 0, owner := "w", data := ["z"] }) ∧
    (kvCbMainSet
        ((updateStore emptyStore ":a:D:x::c"
          { gennum := 0, seqnum := 2, flags := 0, owner := "w", data := ["y"] }) ":a:D:x::c")
        { gennum := 0, seqnum := 4, flags := 0, owner := "w", data := ["z"] } = true ↔
      (updateStore emptyStore ":a:D:x::c"
          { gennum := 0, seqnum := 2, flags := 0, owner := "w", data := ["y"] }) ":a:D:x::c" =
          none ∨
        ∃ o, (updateStore emptyStore ":a:D:x::c"
            { gennum := 0, seqnum := 2, flags := 0, owner := "w", data := ["y"] }) ":a:D:x::c" =
            some o ∧
          o.seqnum ≤ ({ gennum := 0, seqnum := 4, flags := 0, owner := "w", data := ["z"] } :
            VValue).seqnum ∧
          (kvCbOverwrite (some o)
            { gennum := 0, seqnum := 4, flags := 0, owner := "w", data := ["z"] }).1 = true) ∧
    (∀ o r, (updateStore emptyStore ":a:D:x::c"
          { gennum := 0, seqnum := 2, flags := 0, owner := "w", data := ["y"] }) ":a:D:x::c" =
          some o →
        mainSetWrite
          (updateStore emptyStore ":a:D:x::c"
            { gennum := 0, seqnum := 2, flags := 0, owner := "w", data := ["y"] })
          ":a:D:x::c" { gennum := 0, seqnum := 4, flags := 0, owner := "w", data := ["z"] }
          ":a:D:x::c" = some r →
        o.seqnum ≤ r.seqnum) ∧
    (∀ w, getOpFromKey w = .plus →
      syncApplyRec
          (updateStore emptyStore ":a:D:x::c"
            { gennum := 0, seqnum := 2, flags := 0, owner := "w", data := ["y"] })
          { key := w,
            value := .vec { gennum := 0, seqnum := 4, flags := 0, owner := "w", data := ["z"] } } =
        some (kvDeltaSetPlain .plus
          (updateStore emptyStore ":a:D:x::c"
            { gennum := 0, seqnum := 2, flags := 0, owner := "w", data := ["y"] })
          (w.drop 1)
          { gennum := 0, seqnum := 4, flags := 0, owner := "w", data := ["z"] }))) :=
  ⟨by decide, Or.inr (by decide),
    syncMainSetSeqRule _ ":a:D:x::c" _ (by decide) (Or.inr (by decide))⟩

/-- C10 (counterexample): `_kv_cb_main_unset` treats a scalar sync record
as an unset only when its flags equal `KV_MOD_RESERVED` exactly; a scalar
record with flags `KV_MOD_RESERVED | KV_PERSISTENT` — which does mark
`KV_MOD_RESERVED` — is therefore treated as an unset and removes the key,
contradicting the claim that such records are committed as reservations. -/
theorem syncScalarReservedFlagExact :
    (KV_MOD_RESERVED + KV_PERSISTENT) &&& KV_MOD_RESERVED ≠ 0 ∧
    (syncApplyRec
        (updateStore emptyStore ":d:D:q::r"
          { gennum := 1, seqnum := 2, flags := KV_MOD_RESERVED, owner := "m", data := [] })
        { key := ":d:D:q::r",
          value := .scal
            { gennum := 1, seqnum := 9, flags := KV_MOD_RESERVED + KV_PERSISTENT,
              owner := "m", ext := "" } }).map
      (fun s => s ":d:D:q::r") = some none := by
  constructor
  · decide
  · simp +decide [syncApplyRec, getOpFromKey, keyFields, splitOnChar, svalueToVValue,
      mainUnsetWrite, mainSetWrite, kvCbMainSet, kvCbOverwrite, flagsIndicateModOwned,
      updateStore, removeStore, emptyStore, KV_MOD_RESERVED, KV_PERSISTENT, KV_MOD_PRIVATE,
      KV_MOD_PROTECTED]

/-- C10 (amended): during sync, a vector record is an unset iff it has no
data items and its flags do not mark `KV_MOD_RESERVED` (bit test), while a
scalar record with empty extra data is an unset iff its flags are NOT
exactly equal to `KV_MOD_RESERVED`; a scalar whose flags equal
`KV_MOD_RESERVED` exactly is committed as a reservation record.  An unset
is refused (store unchanged) when the stored record is module-owned
(protected, private or reserved flags) by a different owner, and removes
the key otherwise. -/
theorem syncUnsetRule (st : Store) (key : String) (v : VValue) (s : SValue)
    (hop : getOpFromKey key = .set) :
    (v.data = [] → v.flags &&& KV_MOD_RESERVED = 0 →
      syncApplyRec st { key := key, value := .vec v } =
        some (mainUnsetWrite st key v.owner)) ∧
    (v.data = [] → v.flags &&& KV_MOD_RESERVED ≠ 0 →
      syncApplyRec st { key := key, value := .vec v } = some (mainSetWrite st key v)) ∧
    (s.ext = "" → s.flags = KV_MOD_RESERVED →
      syncApplyRec st { key := key, value := .scal s } =
        some (mainSetWrite st key (svalueToVValue s))) ∧
    (s.ext = "" → s.flags ≠ KV_MOD_RESERVED →
      syncApplyRec st { key := key, value := .scal s } =
        some (mainUnsetWrite st key s.owner)) ∧
    (∀ o, st key = some o → flagsIndicateModOwned o.flags = true → o.owner ≠ s.owner →
      mainUnsetWrite st key s.owner = st) ∧
    (∀ o, st key = some o → flagsIndicateModOwned o.flags = false ∨ o.owner = s.owner →
      mainUnsetWrite st key s.owner key = none) := by
  refine ⟨?_, ?_, ?_, ?_, ?_, ?_⟩
  · intro hd hf
    have hf1 : (v.flags &&& KV_MOD_RESERVED != 0) = false := by simpa using hf
    simp [syncApplyRec, hop, hd, hf1]
  · intro hd hf
    have hf1 : (v.flags &&& KV_MOD_RESERVED != 0) = true := by simpa using hf
    simp [syncApplyRec, hop, hd, hf1]
  · intro he hf
    simp [syncApplyRec, hop, he, hf]
  · intro he hf
    have hf1 : (s.flags == KV_MOD_RESERVED) = false := by simpa using hf
    simp [syncApplyRec, hop, he, hf1]
    exact fun h => absurd h hf
  · intro o ho hmod how
    have how1 : (o.owner == s.owner) = false := by simpa using how
    simp [mainUnsetWrite, ho, hmod, how1]
    exact fun h => absurd h how
  · intro o ho hor
    rcases hor with hmod | how
    · simp [mainUnsetWrite, ho, hmod, removeStore]
    · simp [mainUnsetWrite, ho, how, removeStore]

/-- Witness for C10 at key `:g:G:::c` with a store holding a reserved
record owned by `m`, a vector unset by `m` and a scalar reservation. -/
theorem syncUnsetRuleWitness :
    getOpFromKey ":g:G:::c" = .set ∧
    ((({ gennum := 0, seqnum := 1, flags := 0, owner := "m", data := [] } : VValue).data = [] →
      ({ gennum := 0, seqnum := 1, flags := 0, owner := "m", data := [] } :
          VValue).flags &&& KV_MOD_RESERVED = 0 →
      syncApplyRec
          (updateStore emptyStore ":g:G:::c"
            { gennum := 0, seqnum := 0, flags := KV_MOD_RESERVED, owner := "m", data := [] })
          { key := ":g:G:::c",
            value := .vec { gennum := 0, seqnum := 1, flags := 0, owner := "m", data := [] } } =
        some (mainUnsetWrite
          (updateStore emptyStore ":g:G:::c"
            { gennum := 0, seqnum := 0, flags := KV_MOD_RESERVED, owner := "m", data := [] })
          ":g:G:::c"
          ({ gennum := 0, seqnum := 1, flags := 0, owner := "m", data := [] } : VValue).owner)) ∧
    (({ gennum := 0, seqnum := 1, flags := 0, owner := "m", data := [] } : VValue).data = [] →
      ({ gennum := 0, seqnum := 1, flags := 0, owner := "m", data := [] } :
          VValue).flags &&& KV_MOD_RESERVED ≠ 0 →
      syncApplyRec
          (updateStore emptyStore ":g:G:::c"
            { gennum := 0, seqnum := 0, flags := KV_MOD_RESERVED, owner := "m", data := [] })
          { key := ":g:G:::c",
            value := .vec { gennum := 0, seqnum := 1, flags := 0, owner := "m", data := [] } } =
        some (mainSetWrite
          (updateStore emptyStore ":g:G:::c"
            { gennum := 0, seqnum := 0, flags := KV_MOD_RESERVED, owner := "m", data := [] })
          ":g:G:::c" { gennum := 0, seqnum := 1, flags := 0, owner := "m", data := [] })) ∧
    (({ gennum := 0, seqnum := 1, flags := KV_MOD_RESERVED, owner := "m", ext := "" } :
        SValue).ext = "" →
      ({ gennum := 0, seqnum := 1, flags := KV_MOD_RESERVED, owner := "m", ext := "" } :
          SValue).flags = KV_MOD_RESERVED →
      syncApplyRec
          (updateStore emptyStore ":g:G:::c"
            { gennum := 0, seqnum := 0, flags := KV_MOD_RESERVED, owner := "m", data := [] })
          { key := ":g:G:::c",
            value := .scal
              { gennum := 0, seqnum := 1, flags := KV_MOD_RESERVED, owner := "m", ext := "" } } =
        some (mainSetWrite
          (updateStore emptyStore ":g:G:::c"
            { gennum := 0, seqnum := 0, flags := KV_MOD_RESERVED, owner := "m", data := [] })
          ":g:G:::c"
          (svalueToVValue
            { gennum := 0, seqnum := 1, flags := KV_MOD_RESERVED, owner := "m", ext := "" }))) ∧
    (({ gennum := 0, seqnum := 1, flags := KV_MOD_RESERVED, owner := "m", ext := "" } :
        SValue).ext = "" →
      ({ gennum := 0, seqnum := 1, flags := KV_MOD_RESERVED, owner := "m", ext := "" } :
          SValue).flags ≠ KV_MOD_RESERVED →
      syncApplyRec
          (updateStore emptyStore ":g:G:::c"
            { gennum := 0, seqnum := 0, flags := KV_MOD_RESERVED, owner := "m", data := [] })
          { key := ":g:G:::c",
            value := .scal
              { gennum := 0, seqnum := 1, flags := KV_MOD_RESERVED, owner := "m", ext := "" } } =
        some (mainUnsetWrite
          (updateStore emptyStore ":g:G:::c"
            { gennum := 0, seqnum := 0, flags := KV_MOD_RESERVED, owner := "m", data := [] })
          ":g:G:::c"
          ({ gennum := 0, seqnum := 1, flags := KV_MOD_RESERVED, owner := "m", ext := "" } :
            SValue).owner)) ∧
    (∀ o, (updateStore emptyStore ":g:G:::c"
          { gennum := 0, seqnum := 0, flags := KV_MOD_RESERVED, owner := "m", data := [] })
          ":g:G:::c" = some o →
      flagsIndicateModOwned o.flags = true →
      o.owner ≠ ({ gennum := 0, seqnum := 1, flags := KV_MOD_RESERVED, owner := "m", ext := "" } : SValue).owner →
      mainUnsetWrite
          (updateStore emptyStore ":g:G:::c"
            { gennum := 0, seqnum := 0, flags := KV_MOD_RESERVED, owner := "m", data := [] })
          ":g:G:::c"
          ({ gennum := 0, seqnum := 1, flags := KV_MOD_RESERVED, owner := "m", ext := "" } :
            SValue).owner =
        updateStore emptyStore ":g:G:::c"
          { gennum := 0, seqnum := 0, flags := KV_MOD_RESERVED, owner := "m", data := [] }) ∧
    (∀ o, (updateStore emptyStore ":g:G:::c"
          { gennum := 0, seqnum := 0, flags := KV_MOD_RESERVED, owner := "m", data := [] })
          ":g:G:::c" = some o →
      flagsIndicateModOwned o.flags = false ∨
        o.owner = ({ gennum := 0, seqnum := 1, flags := KV_MOD_RESERVED, owner := "m", ext := "" } : SValue).owner →
      mainUnsetWrite
          (updateStore emptyStore ":g:G:::c"
            { gennum := 0, seqnum := 0, flags := KV_MOD_RESERVED, owner := "m", data := [] })
          ":g:G:::c"
          ({ gennum := 0, seqnum := 1, flags := KV_MOD_RESERVED, owner := "m", ext := "" } :
            SValue).owner ":g:G:::c" = none)) :=
  ⟨by decide, syncUnsetRule _ ":g:G:::c" _ _ (by decide)⟩

/-- C6: capability gating of the device-state setters.  In any phase in
which module functions can run (ident through scan-post-next; the error
callback observes one of these phases too), `sid_ucmd_dev_set_ready`
succeeds exactly in scan-pre and scan-current and otherwise returns
`-EPERM` without touching the store, and `sid_ucmd_dev_set_reserved`
succeeds exactly in scan-next and otherwise returns `-EPERM` without
touching the store (valid ready/reserved arguments assumed, so the
`-EINVAL` guards do not fire). -/
theorem scanPhaseCapGate (phase : ScanPhase) (hph : phase ∈ modulePhases)
    (ready : DevReady) (hr1 : ready ≠ .undefined) (hr2 : ready ≠ .unprocessed)
    (resv : DevReserved) (hv : resv ≠ .undefined)
    (st : Store) (devId : String) (g sq : Nat) :
    ((sidUcmdDevSetReady phase ready st devId g sq).1 = 0 ↔
      phase = .aScanPre ∨ phase = .aScanCurrent) ∧
    (phase ≠ .aScanPre → phase ≠ .aScanCurrent →
      sidUcmdDevSetReady phase ready st devId g sq = (-EPERM, st)) ∧
    ((sidUcmdDevSetReserved phase resv st devId g sq).1 = 0 ↔ phase = .aScanNext) ∧
    (phase ≠ .aScanNext → sidUcmdDevSetReserved phase resv st devId g sq = (-EPERM, st)) := by
  fin_cases hph <;>
    simp [sidUcmdDevSetReady, sidUcmdDevSetReserved, hr1, hr2, hv, cmdScanPhaseCaps,
      CMD_SCAN_CAP_RDY, CMD_SCAN_CAP_RES, CMD_SCAN_CAP_ALL, EPERM]

/-- Witness for C6 in the scan-pre phase with valid arguments. -/
theorem scanPhaseCapGateWitness :
    ScanPhase.aScanPre ∈ modulePhases ∧
    DevReady.readyPublic ≠ DevReady.undefined ∧
    DevReady.readyPublic ≠ DevReady.unprocessed ∧
    DevReserved.free ≠ DevReserved.undefined ∧
    (((sidUcmdDevSetReady .aScanPre .readyPublic emptyStore "8_0" 1 2).1 = 0 ↔
      ScanPhase.aScanPre = .aScanPre ∨ ScanPhase.aScanPre = .aScanCurrent) ∧
    (ScanPhase.aScanPre ≠ .aScanPre → ScanPhase.aScanPre ≠ .aScanCurrent →
      sidUcmdDevSetReady .aScanPre .readyPublic emptyStore "8_0" 1 2 = (-EPERM, emptyStore)) ∧
    ((sidUcmdDevSetReserved .aScanPre .free emptyStore "8_0" 1 2).1 = 0 ↔
      ScanPhase.aScanPre = .aScanNext) ∧
    (ScanPhase.aScanPre ≠ .aScanNext →
      sidUcmdDevSetReserved .aScanPre .free emptyStore "8_0" 1 2 = (-EPERM, emptyStore))) :=
  ⟨by decide, by decide, by decide, by decide,
    scanPhaseCapGate .aScanPre (by decide) .readyPublic (by decide) (by decide) .free
      (by decide) emptyStore "8_0" 1 2⟩

/-- C8 (code bug): `_device_add_field` stores each imported `KEY=VALUE` pair
through `_do_sid_ucmd_set_kv` with a flags argument of `0`
(`KV_FLAGS_UNSET`), not `KV_SYNC | KV_PERSISTENT`: on a concrete udev
environment the stored `ACTION` record carries flags 0, while the
recognized fields are correctly mirrored into the udevice structure. -/
theorem udevImportFlagsAndMirror :
    (parseCmdUdevEnv emptyStore {} "8_0" 1
        ["ACTION=add", "DEVPATH=/block/sda", "DEVTYPE=disk", "SEQNUM=7", "DISKSEQ=11",
          "SYNTH_UUID=u1"]).map
        (fun r => ((r.1 (composeKey
            { op := .set, dom := "", ns := .udev, nsPart := "8_0", id := "", idPart := "",
              core := "ACTION" })).map VValue.flags, r.2)) =
      some (some 0,
        { action := .add, path := "/block/sda", name := "sda", devtype := .disk, seqnum := 7,
          diskseq := 11, synthUuid := "u1" }) ∧
    (0 : Nat) ≠ (KV_SYNC ||| KV_PERSISTENT) := by
  constructor
  · simp +decide [parseCmdUdevEnv, deviceAddField, splitKvPair, doSidUcmdSetKv, OWNER_CORE,
      passesGlobalReservationCheck, globalResKeySpec, overwriteWrite, kvCbOverwrite,
      updateStore, emptyStore, composeKey, opToKeyPfxMap, nsToKeyPfxMap, devpathName,
      strRstrSlashIdx, strtoullDec, utilUdevStrToUdevAction, utilUdevStrToUdevDevtype,
      strToLower, KV_MOD_PRIVATE, KV_MOD_PROTECTED, KV_MOD_RESERVED]
  · decide

/-- C9: absolute-delta buffer accounting in `_delta_abs_calc` — each
absolute buffer's computed vsize equals `VVALUE_HEADER_CNT` plus the number
of data items collected into it (the header is counted once even when two
bitmaps contribute), the vsize is zero exactly when neither contributing
vector exists, a buffer is allocated by `_init_delta_buffer` iff its vsize
is non-zero, and with both local delta buffers absent nothing is computed
at all. -/
theorem absDeltaAccounting (sp sm dp dm : Option (List String)) :
    (absMinusSize sp sm dp dm = 0 ↔ sm = none ∧ dm = none) ∧
    (absPlusSize sp sm dp dm = 0 ↔ sp = none ∧ dp = none) ∧
    (¬(sm = none ∧ dm = none) →
      absMinusSize sp sm dp dm = VVALUE_HEADER_CNT + (absMinusItems sp sm dp dm).length) ∧
    (¬(sp = none ∧ dp = none) →
      absPlusSize sp sm dp dm = VVALUE_HEADER_CNT + (absPlusItems sp sm dp dm).length) ∧
    ((initDeltaBuffer (absMinusSize sp sm dp dm) (absMinusItems sp sm dp dm)).isSome = true ↔
      ¬(sm = none ∧ dm = none)) ∧
    ((initDeltaBuffer (absPlusSize sp sm dp dm) (absPlusItems sp sm dp dm)).isSome = true ↔
      ¬(sp = none ∧ dp = none)) ∧
    (∀ (st : Store) (cur : KvKeySpec), deltaAbsCalc st cur none none = (none, none)) := by
  have hminus : (absMinusSize sp sm dp dm = 0 ↔ sm = none ∧ dm = none) ∧
      (¬(sm = none ∧ dm = none) →
        absMinusSize sp sm dp dm = VVALUE_HEADER_CNT + (absMinusItems sp sm dp dm).length) := by
    rcases sm with _ | m <;> rcases dm with _ | d
    · exact ⟨by simp [absMinusSize], fun h => absurd ⟨rfl, rfl⟩ h⟩
    · have hlen : (absMinusItems sp none dp (some d)).length =
          countTrue (keepNewFlags sp d) := by
        simp only [absMinusItems, sortVDataLen, List.append_nil]
        exact keptLen _ _ (keepNewFlagsLen sp d)
      have hsz : absMinusSize sp none dp (some d) =
          VVALUE_HEADER_CNT + countTrue (keepNewFlags sp d) := by
        simp [absMinusSize]
      refine ⟨?_, ?_⟩
      · rw [hsz]
        simp [VVALUE_HEADER_CNT]
      · intro _
        rw [hsz, hlen]
    · have hlen : (absMinusItems sp (some m) dp none).length =
          countTrue (keepOldFlags m dp) := by
        simp only [absMinusItems, sortVDataLen, List.nil_append]
        exact keptLen _ _ (keepOldFlagsLen m dp)
      have hsz : absMinusSize sp (some m) dp none =
          VVALUE_HEADER_CNT + countTrue (keepOldFlags m dp) := by
        simp [absMinusSize]
      refine ⟨?_, ?_⟩
      · rw [hsz]
        simp [VVALUE_HEADER_CNT]
      · intro _
        rw [hsz, hlen]
    · have hlen : (absMinusItems sp (some m) dp (some d)).length =
          countTrue (keepNewFlags sp d) + countTrue (keepOldFlags m dp) := by
        simp only [absMinusItems, sortVDataLen, List.length_append]
        rw [keptLen _ _ (keepNewFlagsLen sp d), keptLen _ _ (keepOldFlagsLen m dp)]
      have hsz : absMinusSize sp (some m) dp (some d) =
          VVALUE_HEADER_CNT +
            (countTrue (keepNewFlags sp d) + countTrue (keepOldFlags m dp)) := by
        simp [absMinusSize, VVALUE_HEADER_CNT]
        omega
      refine ⟨?_, ?_⟩
      · rw [hsz]
        simp [VVALUE_HEADER_CNT]
      · intro _
        rw [hsz, hlen]
  have hplus : (absPlusSize sp sm dp dm = 0 ↔ sp = none ∧ dp = none) ∧
      (¬(sp = none ∧ dp = none) →
        absPlusSize sp sm dp dm = VVALUE_HEADER_CNT + (absPlusItems sp sm dp dm).length) := by
    rcases sp with _ | p <;> rcases dp with _ | d
    · exact ⟨by simp [absPlusSize], fun h => absurd ⟨rfl, rfl⟩ h⟩
    · have hlen : (absPlusItems none sm (some d) dm).length =
          countTrue (keepNewFlags sm d) := by
        simp only [absPlusItems, sortVDataLen, List.nil_append]
        exact keptLen _ _ (keepNewFlagsLen sm d)
      have hsz : absPlusSize none sm (some d) dm =
          VVALUE_HEADER_CNT + countTrue (keepNewFlags sm d) := by
        simp [absPlusSize]
      refine ⟨?_, ?_⟩
      · rw [hsz]
        simp [VVALUE_HEADER_CNT]
      · intro _
        rw [hsz, hlen]
    · have hlen : (absPlusItems (some p) sm none dm).length =
          countTrue (keepOldFlags p dm) := by
        simp only [absPlusItems, sortVDataLen, List.append_nil]
        exact keptLen _ _ (keepOldFlagsLen p dm)
      have hsz : absPlusSize (some p) sm none dm =
          VVALUE_HEADER_CNT + countTrue (keepOldFlags p dm) := by
        simp [absPlusSize]
      refine ⟨?_, ?_⟩
      · rw [hsz]
        simp [VVALUE_HEADER_CNT]
      · intro _
        rw [hsz, hlen]
    · have hlen : (absPlusItems (some p) sm (some d) dm).length =
          countTrue (keepOldFlags p dm) + countTrue (keepNewFlags sm d) := by
        simp only [absPlusItems, sortVDataLen, List.length_append]
        rw [keptLen _ _ (keepOldFlagsLen p dm), keptLen _ _ (keepNewFlagsLen sm d)]
      have hsz : absPlusSize (some p) sm (some d) dm =
          VVALUE_HEADER_CNT +
            (countTrue (keepOldFlags p dm) + countTrue (keepNewFlags sm d)) := by
        simp [absPlusSize, VVALUE_HEADER_CNT]
        omega
      refine ⟨?_, ?_⟩
      · rw [hsz]
        simp [VVALUE_HEADER_CNT]
      · intro _
        rw [hsz, hlen]
  refine ⟨hminus.1, hplus.1, hminus.2, hplus.2, ?_, ?_, ?_⟩
  · by_cases h : absMinusSize sp sm dp dm = 0
    · obtain ⟨h1, h2⟩ := hminus.1.mp h
      subst h1
      subst h2
      simp [initDeltaBuffer, h]
    · simp only [initDeltaBuffer, if_neg h, Option.isSome_some, true_iff]
      exact fun hc => h (hminus.1.mpr hc)
  · by_cases h : absPlusSize sp sm dp dm = 0
    · obtain ⟨h1, h2⟩ := hplus.1.mp h
      subst h1
      subst h2
      simp [initDeltaBuffer, h]
    · simp only [initDeltaBuffer, if_neg h, Option.isSome_some, true_iff]
      exact fun hc => h (hplus.1.mpr hc)
  · intro st cur
    simp [deltaAbsCalc]

/-- Witness for C9: a stored `+` vector `["a"]` against a local
`delta->minus` `["a", "b"]`. -/
theorem absDeltaAccountingWitness :
    absMinusSize (some ["a"]) none none (some ["a", "b"]) =
      VVALUE_HEADER_CNT + (absMinusItems (some ["a"]) none none (some ["a", "b"])).length ∧
    absPlusSize (some ["a"]) none none (some ["a", "b"]) =
      VVALUE_HEADER_CNT + (absPlusItems (some ["a"]) none none (some ["a", "b"])).length ∧
    (initDeltaBuffer (absMinusSize (some ["a"]) none none (some ["a", "b"]))
        (absMinusItems (some ["a"]) none none (some ["a", "b"]))).isSome = true ∧
    deltaAbsCalc emptyStore
        { op := .set, dom := "", ns := .global, nsPart := "", id := "x", idPart := "",
          core := "c" } none none =
      (none, none) := by
  have h := absDeltaAccounting (some ["a"]) none none (some ["a", "b"])
  exact ⟨h.2.2.1 (by simp), h.2.2.2.1 (by simp), h.2.2.2.2.1.mpr (by simp),
    h.2.2.2.2.2.2 emptyStore _⟩

end Sid
